import Mathlib

/-!
Verification of the real-time event distribution subsystem of the
trading-platform core API: the WebSocket `ConnectionManager`
(`core_api/websocket.py`), the SSE-to-WebSocket bridge
(`core_api/bridge.py`), and the client protocol loop
(`core_api/routes/ws.py`).

Modelling conventions:
- Python dicts are insertion-ordered association lists; Python sets of
  connection ids are insertion-ordered duplicate-free lists
  (`setAdd` / `setDiscard` mirror `set.add` / `set.discard`).
- JSON-like payloads are the inductive `Value`; a message
  (`Dict[str, Any]`) is an association list of string keys to values.
- Timestamps (`datetime.utcnow().isoformat()`) are abstracted to a
  `Nat` logical clock value `now`, one instant per manager operation.
- Transport effects: a successful `websocket.send_json` is recorded as
  a `Delivery`; a raising send is modelled by the oracle
  `fails : String → Bool` naming the connections whose transport is
  broken.  `send_personal_message` catching the exception and calling
  `disconnect` is modelled by returning the disconnected state; all
  operations are total functions, mirroring the fact that the Python
  code never propagates send exceptions to its caller.
- `json.loads` is an external library; it is abstracted by a decode
  oracle `decode : String → Option Value` (`none` = `JSONDecodeError`).
-/

/-- JSON-like dynamic value (`Any` payloads in the Python source). -/
inductive Value where
  | str : String → Value
  | num : Nat → Value
  | list : List Value → Value
  | obj : List (String × Value) → Value
  | null : Value

/-- A Python dict used as a message payload: ordered key/value pairs. -/
abbrev Message := List (String × Value)

/-- Lookup in an insertion-ordered dict. -/
def alistGet {α : Type} (m : List (String × α)) (k : String) : Option α :=
  match m with
  | [] => none
  | (k1, v) :: rest => if k1 = k then some v else alistGet rest k

/-- Python dict assignment `m[k] = v`: update in place if the key
exists (keeping its position), otherwise append. -/
def alistSet {α : Type} (m : List (String × α)) (k : String) (v : α) :
    List (String × α) :=
  match m with
  | [] => [(k, v)]
  | (k1, v1) :: rest =>
      if k1 = k then (k, v) :: rest else (k1, v1) :: alistSet rest k v

/-- Python `del m[k]` guarded by `if k in m` (no-op when absent). -/
def alistRemove {α : Type} (m : List (String × α)) (k : String) :
    List (String × α) :=
  match m with
  | [] => []
  | (k1, v) :: rest =>
      if k1 = k then alistRemove rest k else (k1, v) :: alistRemove rest k

/-- Python `k in m` on a dict. -/
def alistHasKey {α : Type} (m : List (String × α)) (k : String) : Bool :=
  (alistGet m k).isSome

/-- In-place mutation of the value stored at key `k` (Python mutates
the set / list object held in the dict). -/
def alistModify {α : Type} (m : List (String × α)) (k : String)
    (f : α → α) : List (String × α) :=
  m.map (fun p => if p.1 = k then (p.1, f p.2) else p)

/-- Python `set.add`: insert if not yet present. -/
def setAdd (s : List String) (x : String) : List String :=
  if s.contains x then s else s ++ [x]

/-- Python `set.discard`: remove if present, no error otherwise. -/
def setDiscard (s : List String) (x : String) : List String :=
  s.filter (fun y => y ≠ x)

/-- Python `list.remove`: drop the first occurrence. -/
def removeFirst (l : List String) (x : String) : List String :=
  match l with
  | [] => []
  | y :: rest => if y = x then rest else y :: removeFirst rest x

/-- Per-connection metadata dict (`connection_metadata[connection_id]`):
keys `connected_at`, `channels`, `last_ping` of the Python dict. -/
structure ConnMeta where
  connected_at : Nat
  channels : List String
  last_ping : Nat
deriving DecidableEq

/-- The `ConnectionManager` state: `active_connections` (the dict's
key list; the stored WebSocket object is identified by the id),
`subscriptions` (channel → subscriber-id set) and
`connection_metadata`. -/
structure ManagerState where
  active_connections : List String
  subscriptions : List (String × List String)
  connection_metadata : List (String × ConnMeta)
deriving DecidableEq

/-- `ConnectionManager.__init__`: the fixed channel registry. -/
def initialState : ManagerState :=
  { active_connections := []
    subscriptions :=
      [("alerts", []), ("prices", []), ("indicators", []),
       ("news", []), ("activity", [])]
    connection_metadata := [] }

/-- One successful `websocket.send_json` observed by a client. -/
structure Delivery where
  connection_id : String
  message : Message

/-- Decode a `Value` that is a list of strings (used to inspect the
`channels` field of acknowledgement messages). -/
def valueStrings : Value → Option (List String)
  | Value.list vs =>
      vs.foldr
        (fun v acc =>
          match v, acc with
          | Value.str s, some ss => some (s :: ss)
          | _, _ => none)
        (some [])
  | _ => none

/-- The `channels` field of a message, decoded as a string list. -/
def msgChannels (m : Message) : Option (List String) :=
  match alistGet m "channels" with
  | some v => valueStrings v
  | none => none

/-- `ConnectionManager.disconnect`: delete from the connection table
and metadata table, `discard` from every channel's subscriber set. -/
def disconnect (connection_id : String) (s : ManagerState) : ManagerState :=
  { active_connections :=
      s.active_connections.filter (fun y => y ≠ connection_id)
    subscriptions :=
      s.subscriptions.map (fun p => (p.1, setDiscard p.2 connection_id))
    connection_metadata :=
      alistRemove s.connection_metadata connection_id }

/-- `ConnectionManager.send_personal_message`: send to one connection
if it is registered; on transport failure (the `fails` oracle) the
exception is caught, logged, and the connection is disconnected. -/
def send_personal_message (fails : String → Bool) (message : Message)
    (connection_id : String) (s : ManagerState) :
    ManagerState × List Delivery :=
  if s.active_connections.contains connection_id then
    if fails connection_id then
      (disconnect connection_id s, [])
    else
      (s, [⟨connection_id, message⟩])
  else
    (s, [])

/-- The `for connection_id in targets: await self.send_personal_message(...)`
loop shared by both broadcast methods, threading the manager state. -/
def fanout (fails : String → Bool) (message : Message)
    (targets : List String) (s : ManagerState) :
    ManagerState × List Delivery :=
  match targets with
  | [] => (s, [])
  | cid :: rest =>
      let r := send_personal_message fails message cid s
      let r2 := fanout fails message rest r.1
      (r2.1, r.2 ++ r2.2)

/-- `if channel in self.subscriptions: self.subscriptions[channel].add(cid)`. -/
def addSubscriber (subs : List (String × List String))
    (channel cid : String) : List (String × List String) :=
  if alistHasKey subs channel then
    alistModify subs channel (fun set => setAdd set cid)
  else subs

/-- The welcome acknowledgement sent by `connect`
(`{"type":"connection","status":"connected",...}`); its `channels`
field is the raw `channels or []` argument. -/
def welcomeMsg (connection_id : String) (chs : List String) (now : Nat) :
    Message :=
  [("type", Value.str "connection"),
   ("status", Value.str "connected"),
   ("connection_id", Value.str connection_id),
   ("channels", Value.list (chs.map Value.str)),
   ("timestamp", Value.num now)]

/-- `ConnectionManager.connect`: accept, register the connection and
its metadata (`channels or []` stored verbatim, `last_ping` set to the
accept instant), add the id to every *known* requested channel, then
send the welcome message. -/
def connect (fails : String → Bool) (connection_id : String)
    (channels : Option (List String)) (now : Nat) (s : ManagerState) :
    ManagerState × List Delivery :=
  let chs := match channels with
    | none => []
    | some cs => cs
  let s1 : ManagerState :=
    { active_connections := setAdd s.active_connections connection_id
      subscriptions :=
        chs.foldl (fun sb ch => addSubscriber sb ch connection_id)
          s.subscriptions
      connection_metadata :=
        alistSet s.connection_metadata connection_id
          ⟨now, chs, now⟩ }
  send_personal_message fails (welcomeMsg connection_id chs now)
    connection_id s1

/-- The `{**message, "channel": c, "timestamp": t}` augmentation done
by `broadcast_to_channel` before fanning out. -/
def withChannelMeta (message : Message) (channel : String) (now : Nat) :
    Message :=
  alistSet (alistSet message "channel" (Value.str channel))
    "timestamp" (Value.num now)

/-- `ConnectionManager.broadcast_to_channel`: unknown channel → warn
and return; otherwise augment the message once, snapshot (`copy()`)
the subscriber set, and send to each snapshotted subscriber in turn,
threading the state (a failed send disconnects that subscriber). -/
def broadcast_to_channel (fails : String → Bool) (channel : String)
    (message : Message) (now : Nat) (s : ManagerState) :
    ManagerState × List Delivery :=
  match alistGet s.subscriptions channel with
  | none => (s, [])
  | some subscribers =>
      fanout fails (withChannelMeta message channel now) subscribers s

/-- `ConnectionManager.broadcast_to_all`: timestamp the message and
send to a snapshot of all active connection ids. -/
def broadcast_to_all (fails : String → Bool) (message : Message)
    (now : Nat) (s : ManagerState) : ManagerState × List Delivery :=
  fanout fails (alistSet message "timestamp" (Value.num now))
    s.active_connections s

/-- Append a channel to a connection's recorded channel list
(`connection_metadata[cid]["channels"].append(channel)`). -/
def metaAppendChannel (m : List (String × ConnMeta)) (cid ch : String) :
    List (String × ConnMeta) :=
  alistModify m cid (fun meta =>
    { meta with channels := meta.channels ++ [ch] })

/-- `if channel in metadata_channels: metadata_channels.remove(channel)`. -/
def metaRemoveChannel (m : List (String × ConnMeta)) (cid ch : String) :
    List (String × ConnMeta) :=
  alistModify m cid (fun meta =>
    { meta with channels :=
        if meta.channels.contains ch then removeFirst meta.channels ch
        else meta.channels })

/-- The `{"type":"subscription","action":...,"channels":...}` ack; its
`channels` field is the raw requested list. -/
def subscriptionAck (action : String) (channels : List String) : Message :=
  [("type", Value.str "subscription"),
   ("action", Value.str action),
   ("channels", Value.list (channels.map Value.str))]

/-- One iteration of `subscribe`'s channel loop. -/
def subscribeStep (cid : String) (st : ManagerState) (ch : String) :
    ManagerState :=
  if alistHasKey st.subscriptions ch then
    let st1 : ManagerState :=
      { st with subscriptions := addSubscriber st.subscriptions ch cid }
    if alistHasKey st1.connection_metadata cid then
      { st1 with connection_metadata :=
          metaAppendChannel st1.connection_metadata cid ch }
    else st1
  else st

/-- `ConnectionManager.subscribe`: for each known channel add the id to
its subscriber set and append the channel to the metadata list, then
send a "subscribed" ack listing the *requested* channels. -/
def subscribe (fails : String → Bool) (connection_id : String)
    (channels : List String) (s : ManagerState) :
    ManagerState × List Delivery :=
  let s1 := channels.foldl (subscribeStep connection_id) s
  send_personal_message fails (subscriptionAck "subscribed" channels)
    connection_id s1

/-- One iteration of `unsubscribe`'s channel loop. -/
def unsubscribeStep (cid : String) (st : ManagerState) (ch : String) :
    ManagerState :=
  if alistHasKey st.subscriptions ch then
    let st1 : ManagerState :=
      { st with subscriptions :=
          alistModify st.subscriptions ch (fun set => setDiscard set cid) }
    if alistHasKey st1.connection_metadata cid then
      { st1 with connection_metadata :=
          metaRemoveChannel st1.connection_metadata cid ch }
    else st1
  else st

/-- `ConnectionManager.unsubscribe`: for each known channel discard the
id from its subscriber set and remove the channel from the metadata
list, then send an "unsubscribed" ack listing the requested channels. -/
def unsubscribe (fails : String → Bool) (connection_id : String)
    (channels : List String) (s : ManagerState) :
    ManagerState × List Delivery :=
  let s1 := channels.foldl (unsubscribeStep connection_id) s
  send_personal_message fails (subscriptionAck "unsubscribed" channels)
    connection_id s1

/-- `ConnectionManager.get_stats`: read-only snapshot. -/
def get_stats (s : ManagerState) : Value :=
  Value.obj
    [("total_connections", Value.num s.active_connections.length),
     ("subscriptions",
       Value.obj (s.subscriptions.map
         (fun p => (p.1, Value.num p.2.length)))),
     ("connections",
       Value.list (s.connection_metadata.map
         (fun p => Value.obj
           [("connection_id", Value.str p.1),
            ("connected_at", Value.num p.2.connected_at),
            ("channels", Value.list (p.2.channels.map Value.str)),
            ("last_ping", Value.num p.2.last_ping)])))]

/-! ## Client protocol handler (`core_api/routes/ws.py`) -/

/-- An inbound client command as decoded by `websocket.receive_json`:
`data.get("action")` and `data.get("channels", [])`. -/
structure InboundMsg where
  action : Option String
  channels : List String

/-- Python's f-string rendering of `data.get("action")`. -/
def showAction : Option String → String
  | none => "None"
  | some a => a

/-- The error reply sent for an unrecognized action. -/
def unknownActionReply (action : Option String) : Message :=
  [("type", Value.str "error"),
   ("message", Value.str ("Unknown action: " ++ showAction action))]

/-- The dispatch on `data.get("action")` inside the message loop of
`websocket_endpoint`. -/
def handleCommand (fails : String → Bool) (connection_id : String)
    (msg : InboundMsg) (s : ManagerState) : ManagerState × List Delivery :=
  if msg.action = some "subscribe" then
    subscribe fails connection_id msg.channels s
  else if msg.action = some "unsubscribe" then
    unsubscribe fails connection_id msg.channels s
  else if msg.action = some "ping" then
    send_personal_message fails [("type", Value.str "pong")] connection_id s
  else if msg.action = some "get_stats" then
    send_personal_message fails
      [("type", Value.str "stats"), ("data", get_stats s)] connection_id s
  else
    send_personal_message fails (unknownActionReply msg.action)
      connection_id s

/-- What `websocket.receive_json` yields on each loop iteration: a
decoded command, a `WebSocketDisconnect`, or another transport
exception. -/
inductive TransportEvent where
  | command : InboundMsg → TransportEvent
  | disconnected : TransportEvent
  | transportError : TransportEvent

/-- Whether the loop is still running after consuming the event list. -/
inductive LoopStatus where
  | running : LoopStatus
  | closed : LoopStatus
deriving DecidableEq

/-- `true` iff the event is a decoded command (keeps the loop going). -/
def TransportEvent.isCommand : TransportEvent → Bool
  | TransportEvent.command _ => true
  | _ => false

/-- The `while True` message loop of `websocket_endpoint`, run over a
finite prefix of transport events: commands are dispatched and the
loop continues; `WebSocketDisconnect` and any other exception leave
the loop and call `manager.disconnect(connection_id)`. -/
def websocket_loop (fails : String → Bool) (connection_id : String)
    (events : List TransportEvent) (s : ManagerState) :
    ManagerState × List Delivery × LoopStatus :=
  match events with
  | [] => (s, [], LoopStatus.running)
  | TransportEvent.command m :: rest =>
      let r := handleCommand fails connection_id m s
      let r2 := websocket_loop fails connection_id rest r.1
      (r2.1, r.2 ++ r2.2.1, r2.2.2)
  | TransportEvent.disconnected :: _ =>
      (disconnect connection_id s, [], LoopStatus.closed)
  | TransportEvent.transportError :: _ =>
      (disconnect connection_id s, [], LoopStatus.closed)

/-! ## SSE-to-WebSocket bridge (`core_api/bridge.py`)

`SSEBridge._bridge_alerts_stream` is modelled between `start` and
`stop`, i.e. with `self._running` constantly true: each iteration of
the `while self._running` loop is one connection attempt to the
upstream stream.  An attempt yields the text lines received before the
upstream terminated, and whether the termination was a raised error
(`httpx.HTTPError` or any other exception, at connect time or
mid-stream) or a normal end of stream (which includes a non-success
HTTP status: the code never calls `raise_for_status`, so an error
response just streams its body and ends). -/

/-- One iteration of the bridge's reconnect loop. -/
structure Attempt where
  lines : List String
  raisedError : Bool

/-- Observable bridge behaviour: a connection attempt, a publish into
the manager, or an `asyncio.sleep` backoff. -/
inductive BridgeEvent where
  | attempt : BridgeEvent
  | publish : String → Message → BridgeEvent
  | backoffWait : Nat → BridgeEvent

/-- Processing of one upstream line by the alerts bridge: lines not
starting with `"data: "` are ignored (the Python
`line.startswith("data: ")` test, expressed character-wise on
`String.data`); the 6-character prefix is stripped (`line[6:]`) and
the remainder decoded (`json.loads`, abstracted by the `decode`
oracle); a decode failure is caught and dropped; a success is
forwarded to `broadcast_to_channel("alerts", ...)`. -/
def processLine (decode : String → Option Value) (line : String) :
    List BridgeEvent :=
  if line.data.take 6 = "data: ".data then
    match decode (String.mk (line.data.drop 6)) with
    | some v =>
        [BridgeEvent.publish "alerts"
          [("type", Value.str "alert"), ("data", v)]]
    | none => []
  else []

/-- The events of one connection attempt: the attempt itself, the
per-line processing, and — only when the attempt ended in a raised
error — the fixed 5-second backoff sleep. -/
def bridgeAttemptEvents (decode : String → Option Value) (a : Attempt) :
    List BridgeEvent :=
  BridgeEvent.attempt ::
    (a.lines.flatMap (processLine decode) ++
      (if a.raisedError then [BridgeEvent.backoffWait 5] else []))

/-- The event trace of a bridge session over a finite prefix of
connection attempts (the `while` loop itself never exits while
`_running` holds). -/
def bridgeTrace (decode : String → Option Value)
    (attempts : List Attempt) : List BridgeEvent :=
  attempts.flatMap (bridgeAttemptEvents decode)

/-- Number of backoff sleeps in a trace. -/
def countBackoffs (tr : List BridgeEvent) : Nat :=
  (tr.filter (fun e => match e with
    | BridgeEvent.backoffWait _ => true
    | _ => false)).length

/-- The publishes of a trace, as (channel, message) pairs. -/
def publishesOf (tr : List BridgeEvent) : List (String × Message) :=
  tr.filterMap (fun e => match e with
    | BridgeEvent.publish c m => some (c, m)
    | _ => none)

/-- A line that will be counted as a published event: `"data: "`
prefixed and with a decodable remainder. -/
def isGoodLine (decode : String → Option Value) (line : String) : Bool :=
  decide (line.data.take 6 = "data: ".data) &&
    (decode (String.mk (line.data.drop 6))).isSome

/-! ## Derived notions used by the verified properties -/

/-- The subscriber set of a channel (empty for unknown channels). -/
def subsOf (s : ManagerState) (ch : String) : List String :=
  (alistGet s.subscriptions ch).getD []

/-- The channel list recorded in a connection's metadata. -/
def channelsOfMeta (s : ManagerState) (cid : String) : List String :=
  match alistGet s.connection_metadata cid with
  | some m => m.channels
  | none => []

/-- One `ConnectionManager` mutating operation, as invoked by the
protocol handler and the bridge. -/
inductive MgrOp where
  | connectOp : String → Option (List String) → MgrOp
  | disconnectOp : String → MgrOp
  | subscribeOp : String → List String → MgrOp
  | unsubscribeOp : String → List String → MgrOp
  | sendOp : Message → String → MgrOp
  | broadcastOp : String → Message → MgrOp
  | broadcastAllOp : Message → MgrOp

/-- Run one manager operation. -/
def applyOp (fails : String → Bool) (now : Nat) (op : MgrOp)
    (s : ManagerState) : ManagerState × List Delivery :=
  match op with
  | MgrOp.connectOp cid chs => connect fails cid chs now s
  | MgrOp.disconnectOp cid => (disconnect cid s, [])
  | MgrOp.subscribeOp cid chs => subscribe fails cid chs s
  | MgrOp.unsubscribeOp cid chs => unsubscribe fails cid chs s
  | MgrOp.sendOp m cid => send_personal_message fails m cid s
  | MgrOp.broadcastOp ch m => broadcast_to_channel fails ch m now s
  | MgrOp.broadcastAllOp m => broadcast_to_all fails m now s

/-- The mutual-consistency invariant exactly as the specification
claims it: every channel listed in a connection's metadata has that
connection in its subscriber set and is listed exactly once, and every
subscriber of a channel is an open connection listing that channel. -/
def mutuallyConsistent (s : ManagerState) : Bool :=
  s.connection_metadata.all (fun p =>
    p.2.channels.all (fun ch =>
      (subsOf s ch).contains p.1 && p.2.channels.count ch == 1)) &&
  s.subscriptions.all (fun p =>
    p.2.all (fun cid =>
      s.active_connections.contains cid &&
      (channelsOfMeta s cid).contains p.1))

/-- The part of the invariant the code actually maintains: the
connection table and metadata table have the same keys, and every
subscriber of a channel is an open connection whose metadata lists
that channel (possibly among duplicates or unknown names). -/
def managerInvP (s : ManagerState) : Prop :=
  (∀ cid ∈ s.active_connections,
     alistHasKey s.connection_metadata cid = true) ∧
  (∀ cid : String, alistHasKey s.connection_metadata cid = true →
     cid ∈ s.active_connections) ∧
  (∀ ch cid : String, cid ∈ subsOf s ch →
     cid ∈ s.active_connections ∧ ch ∈ channelsOfMeta s cid)

/-- Precondition under which the protocol handler invokes an
operation: `connect` is called with a fresh `uuid4` identifier, and
`subscribe` / `unsubscribe` against an open connection. -/
def opOK (s : ManagerState) : MgrOp → Bool
  | MgrOp.connectOp cid _ => !(s.active_connections.contains cid)
  | MgrOp.subscribeOp cid _ => s.active_connections.contains cid
  | MgrOp.unsubscribeOp cid _ => s.active_connections.contains cid
  | _ => true

/-- The `(connected_at, last_ping)` pair stored for a connection. -/
def timesOf (s : ManagerState) (cid : String) : Option (Nat × Nat) :=
  (alistGet s.connection_metadata cid).map
    (fun m => (m.connected_at, m.last_ping))

/-- Whether an operation is a `connect` of the given id. -/
def isConnectOf (op : MgrOp) (cid : String) : Bool :=
  match op with
  | MgrOp.connectOp cid2 _ => cid2 = cid
  | _ => false

/-- Decode one element of the `connections` array of a `get_stats()`
value into its `(connection_id, last_ping)` pair. -/
def statsEntryDecode : Value → Option (String × Nat)
  | Value.obj f2 =>
      match alistGet f2 "connection_id", alistGet f2 "last_ping" with
      | some (Value.str id), some (Value.num n) => some (id, n)
      | _, _ => none
  | _ => none

/-- The `(connection_id, last_ping)` pairs appearing in the
`connections` array of a `get_stats()` value. -/
def statsLastPings (v : Value) : List (String × Nat) :=
  match v with
  | Value.obj fields =>
      match alistGet fields "connections" with
      | some (Value.list conns) => conns.filterMap statsEntryDecode
      | _ => []
  | _ => []

/-- Recognizer for a `subscribed` acknowledgement listing a channel. -/
def isSubscribedAck (m : Message) (ch : String) : Bool :=
  (match alistGet m "type" with
   | some (Value.str t) => t = "subscription"
   | _ => false) &&
  (match alistGet m "action" with
   | some (Value.str a) => a = "subscribed"
   | _ => false) &&
  (match msgChannels m with
   | some chs => chs.contains ch
   | _ => false)

/-! ## Association-list and set lemmas -/

theorem alistGet_alistSet {α : Type} (m : List (String × α))
    (k k1 : String) (v : α) :
    alistGet (alistSet m k v) k1 =
      if k = k1 then some v else alistGet m k1 := by
  induction m with
  | nil => simp [alistSet, alistGet]
  | cons p rest ih =>
      obtain ⟨k2, v2⟩ := p
      simp only [alistSet]
      by_cases h2 : k2 = k
      · subst h2
        rw [if_pos rfl]
        simp only [alistGet]
        by_cases h3 : k2 = k1
        · simp [h3]
        · simp [h3]
      · rw [if_neg h2]
        simp only [alistGet]
        by_cases h3 : k2 = k1
        · subst h3
          have h4 : ¬ k = k2 := fun h => h2 h.symm
          simp [h4]
        · simp [h3, ih]

theorem alistGet_alistModify {α : Type} (m : List (String × α))
    (k k1 : String) (f : α → α) :
    alistGet (alistModify m k f) k1 =
      if k = k1 then (alistGet m k).map f else alistGet m k1 := by
  induction m with
  | nil => simp [alistModify, alistGet]
  | cons p rest ih =>
      obtain ⟨k2, v2⟩ := p
      simp only [alistModify, List.map_cons] at ih ⊢
      by_cases h2 : k2 = k
      · subst h2
        rw [if_pos rfl]
        simp only [alistGet]
        by_cases h3 : k2 = k1
        · subst h3
          simp [ih]
        · have h4 : ¬ k2 = k1 := h3
          simp [h4, ih]
      · rw [if_neg h2]
        simp only [alistGet]
        by_cases h3 : k2 = k1
        · subst h3
          have h4 : ¬ k = k2 := fun h => h2 h.symm
          simp [h4]
        · simp [h3, h2, ih]

theorem alistGet_alistRemove {α : Type} (m : List (String × α))
    (k k1 : String) :
    alistGet (alistRemove m k) k1 =
      if k = k1 then none else alistGet m k1 := by
  induction m with
  | nil => simp [alistRemove, alistGet]
  | cons p rest ih =>
      obtain ⟨k2, v2⟩ := p
      simp only [alistRemove]
      by_cases h2 : k2 = k
      · subst h2
        rw [if_pos rfl]
        by_cases h3 : k2 = k1
        · subst h3
          simp [ih]
        · simp [h3, ih, alistGet]
      · rw [if_neg h2]
        simp only [alistGet]
        by_cases h3 : k2 = k1
        · subst h3
          have h4 : ¬ k = k2 := fun h => h2 h.symm
          simp [h4]
        · simp [h3, ih]

theorem alistGet_mapValues {α β : Type} (m : List (String × α))
    (g : α → β) (k : String) :
    alistGet (m.map (fun p => (p.1, g p.2))) k = (alistGet m k).map g := by
  induction m with
  | nil => simp [alistGet]
  | cons p rest ih =>
      obtain ⟨k2, v2⟩ := p
      by_cases h2 : k2 = k
      · subst h2
        simp [alistGet]
      · simp [alistGet, h2, ih]

theorem setDiscard_contains_self (l : List String) (x : String) :
    (setDiscard l x).contains x = false := by
  simp [setDiscard, List.mem_filter]

theorem setDiscard_idem (l : List String) (x : String) :
    setDiscard (setDiscard l x) x = setDiscard l x := by
  simp only [setDiscard]
  rw [List.filter_filter]
  simp

theorem mem_setAdd (l : List String) (x y : String) :
    y ∈ setAdd l x ↔ y ∈ l ∨ y = x := by
  by_cases hx : x ∈ l
  · have h : l.contains x = true := by simpa using hx
    simp only [setAdd, h, if_true]
    exact ⟨fun hy => Or.inl hy, fun hy => hy.elim id (fun e => e ▸ hx)⟩
  · have h : l.contains x = false := by simpa using hx
    simp [setAdd, h, hx, List.mem_append]

/-! ## Send, disconnect and fan-out lemmas -/

theorem send_delivers (fails : String → Bool) (msg : Message)
    (cid : String) (s : ManagerState)
    (hc : s.active_connections.contains cid = true)
    (hf : fails cid = false) :
    send_personal_message fails msg cid s = (s, [⟨cid, msg⟩]) := by
  have hc2 : cid ∈ s.active_connections := by simpa using hc
  simp [send_personal_message, hc2, hf]

theorem send_fails (fails : String → Bool) (msg : Message)
    (cid : String) (s : ManagerState)
    (hc : s.active_connections.contains cid = true)
    (hf : fails cid = true) :
    send_personal_message fails msg cid s = (disconnect cid s, []) := by
  have hc2 : cid ∈ s.active_connections := by simpa using hc
  simp [send_personal_message, hc2, hf]

theorem send_inactive (fails : String → Bool) (msg : Message)
    (cid : String) (s : ManagerState)
    (hc : s.active_connections.contains cid = false) :
    send_personal_message fails msg cid s = (s, []) := by
  have hc2 : cid ∉ s.active_connections := by simpa using hc
  simp [send_personal_message, hc2]

theorem disconnect_not_active (cid : String) (s : ManagerState) :
    (disconnect cid s).active_connections.contains cid = false := by
  simp [disconnect, List.mem_filter]

theorem disconnect_meta_gone (cid : String) (s : ManagerState) :
    alistGet (disconnect cid s).connection_metadata cid = none := by
  simp [disconnect, alistGet_alistRemove]

theorem disconnect_not_subscribed (cid : String) (s : ManagerState)
    (ch : String) :
    (subsOf (disconnect cid s) ch).contains cid = false := by
  simp only [subsOf, disconnect]
  have h := alistGet_mapValues s.subscriptions (fun l => setDiscard l cid) ch
  simp only [h]
  cases alistGet s.subscriptions ch with
  | none => simp
  | some l => simpa using setDiscard_contains_self l cid

theorem disconnect_other_active (cid cid2 : String) (s : ManagerState)
    (h : cid2 ≠ cid) :
    ((disconnect cid s).active_connections.contains cid2) =
      (s.active_connections.contains cid2) := by
  simp [disconnect, List.mem_filter, h]

theorem fanout_all_delivered (fails : String → Bool) (msg : Message) :
    ∀ (targets : List String) (s : ManagerState),
    (∀ cid ∈ targets, s.active_connections.contains cid = true) →
    (∀ cid ∈ targets, fails cid = false) →
    fanout fails msg targets s =
      (s, targets.map (fun cid => ⟨cid, msg⟩)) := by
  intro targets
  induction targets with
  | nil => intro s _ _; rfl
  | cons cid rest ih =>
      intro s h1 h2
      have hc := h1 cid (by simp)
      have hf := h2 cid (by simp)
      simp only [fanout, send_delivers fails msg cid s hc hf]
      rw [ih s (fun c hm => h1 c (List.mem_cons_of_mem _ hm))
            (fun c hm => h2 c (List.mem_cons_of_mem _ hm))]
      simp

theorem fanout_after_removal (fails : String → Bool) (msg : Message)
    (bad : String) (hbadf : fails bad = true) :
    ∀ (targets : List String) (s : ManagerState),
    (∀ cid ∈ targets, cid ≠ bad →
       s.active_connections.contains cid = true) →
    (∀ cid ∈ targets, cid ≠ bad → fails cid = false) →
    (s.active_connections.contains bad = false) →
    fanout fails msg targets s =
      (s, (targets.filter (fun cid => cid ≠ bad)).map
            (fun cid => ⟨cid, msg⟩)) := by
  intro targets
  induction targets with
  | nil => intro s _ _ _; rfl
  | cons cid rest ih =>
      intro s h1 h2 hbad
      by_cases he : cid = bad
      · subst he
        simp only [fanout, send_inactive fails msg cid s hbad]
        rw [ih s (fun c hm hne => h1 c (List.mem_cons_of_mem _ hm) hne)
              (fun c hm hne => h2 c (List.mem_cons_of_mem _ hm) hne) hbad]
        simp
      · have hc := h1 cid (by simp) he
        have hf := h2 cid (by simp) he
        simp only [fanout, send_delivers fails msg cid s hc hf]
        rw [ih s (fun c hm hne => h1 c (List.mem_cons_of_mem _ hm) hne)
              (fun c hm hne => h2 c (List.mem_cons_of_mem _ hm) hne) hbad]
        simp [he]

theorem fanout_one_failure (fails : String → Bool) (msg : Message)
    (bad : String) :
    ∀ (targets : List String) (s : ManagerState),
    (∀ cid ∈ targets, s.active_connections.contains cid = true) →
    (∀ cid, fails cid = true ↔ cid = bad) →
    bad ∈ targets →
    fanout fails msg targets s =
      (disconnect bad s,
       (targets.filter (fun cid => cid ≠ bad)).map
         (fun cid => ⟨cid, msg⟩)) := by
  intro targets
  induction targets with
  | nil => intro s _ _ hmem; cases hmem
  | cons cid rest ih =>
      intro s h1 hf hmem
      have hbadf : fails bad = true := (hf bad).mpr rfl
      by_cases he : cid = bad
      · subst he
        have hc := h1 cid (by simp)
        simp only [fanout, send_fails fails msg cid s hc hbadf]
        rw [fanout_after_removal fails msg cid hbadf rest (disconnect cid s)
              (fun c hm hne => by
                rw [disconnect_other_active cid c s hne]
                exact h1 c (List.mem_cons_of_mem _ hm))
              (fun c hm hne => by
                have := hf c
                cases hfc : fails c with
                | false => rfl
                | true => exact absurd ((hf c).mp hfc) hne)
              (disconnect_not_active cid s)]
        simp
      · have hc := h1 cid (by simp)
        have hfc : fails cid = false := by
          cases hfc : fails cid with
          | false => rfl
          | true => exact absurd ((hf cid).mp hfc) he
        have hmem2 : bad ∈ rest := by
          cases hmem with
          | head => exact absurd rfl he
          | tail _ hm => exact hm
        simp only [fanout, send_delivers fails msg cid s hc hfc]
        rw [ih s (fun c hm => h1 c (List.mem_cons_of_mem _ hm)) hf hmem2]
        simp [he]

theorem alistRemove_idem {α : Type} (m : List (String × α)) (k : String) :
    alistRemove (alistRemove m k) k = alistRemove m k := by
  induction m with
  | nil => rfl
  | cons p rest ih =>
      obtain ⟨k2, v2⟩ := p
      by_cases h2 : k2 = k
      · simp [alistRemove, h2, ih]
      · simp [alistRemove, h2, ih]

/-! ## Example states used by witnesses and counterexamples -/

/-- Registry with two open connections, both subscribed to `alerts`. -/
def exFan : ManagerState :=
  { active_connections := ["c1", "c2"]
    subscriptions :=
      [("alerts", ["c1", "c2"]), ("prices", []), ("indicators", []),
       ("news", []), ("activity", [])]
    connection_metadata :=
      [("c1", ⟨0, ["alerts"], 0⟩), ("c2", ⟨0, ["alerts"], 0⟩)] }

/-- Registry with five open connections subscribed to `alerts`. -/
def exFan5 : ManagerState :=
  { active_connections := ["c1", "c2", "c3", "c4", "c5"]
    subscriptions :=
      [("alerts", ["c1", "c2", "c3", "c4", "c5"]), ("prices", []),
       ("indicators", []), ("news", []), ("activity", [])]
    connection_metadata :=
      [("c1", ⟨0, ["alerts"], 0⟩), ("c2", ⟨0, ["alerts"], 0⟩),
       ("c3", ⟨0, ["alerts"], 0⟩), ("c4", ⟨0, ["alerts"], 0⟩),
       ("c5", ⟨0, ["alerts"], 0⟩)] }

/-- Failure oracle breaking exactly connection `c3`. -/
def exFails3 : String → Bool := fun cid => cid == "c3"

/-! ## Claim theorems -/

/-- C1: a single `broadcast_to_channel` on a registered channel, with
every snapshotted subscriber open and no transport failure, delivers
exactly one message per subscriber of the snapshot — `N` deliveries
for `N` subscribers, no skips, no duplicates, in snapshot order — and
every delivered message is the published message augmented with the
channel name and the publish-time timestamp; the manager state is
unchanged. -/
theorem C1_broadcast_fanout (fails : String → Bool) (channel : String)
    (message : Message) (now : Nat) (s : ManagerState)
    (subscribers : List String)
    (hch : alistGet s.subscriptions channel = some subscribers)
    (hactive : ∀ cid ∈ subscribers,
       s.active_connections.contains cid = true)
    (hok : ∀ cid ∈ subscribers, fails cid = false) :
    broadcast_to_channel fails channel message now s =
      (s, subscribers.map (fun cid =>
        ⟨cid, withChannelMeta message channel now⟩)) ∧
    (broadcast_to_channel fails channel message now s).2.length =
      subscribers.length := by
  have h := fanout_all_delivered fails
    (withChannelMeta message channel now) subscribers s hactive hok
  constructor
  · simp [broadcast_to_channel, hch, h]
  · simp [broadcast_to_channel, hch, h]

/-- Witness for C1: two subscribers of `alerts`, both receive the
augmented message exactly once. -/
theorem C1_broadcast_fanout_witness :
    alistGet exFan.subscriptions "alerts" = some ["c1", "c2"] ∧
    broadcast_to_channel (fun _ => false) "alerts"
        [("id", Value.str "x1")] 7 exFan =
      (exFan, (["c1", "c2"]).map (fun cid =>
        ⟨cid, withChannelMeta [("id", Value.str "x1")] "alerts" 7⟩)) ∧
    (broadcast_to_channel (fun _ => false) "alerts"
        [("id", Value.str "x1")] 7 exFan).2.length = 2 :=
  ⟨rfl,
   (C1_broadcast_fanout (fun _ => false) "alerts" [("id", Value.str "x1")]
      7 exFan ["c1", "c2"] rfl (by decide) (by decide)).1,
   (C1_broadcast_fanout (fun _ => false) "alerts" [("id", Value.str "x1")]
      7 exFan ["c1", "c2"] rfl (by decide) (by decide)).2⟩

/-- C2: if, during a broadcast, the send to exactly one subscriber
(`bad`) raises, every other snapshotted subscriber still receives the
augmented message, and exactly that one connection is removed from the
connection table, the metadata table, and every channel's subscriber
set; other connections' registration is untouched.  No error reaches
the caller of the broadcast: the operation is a total function whose
failure handling is entirely the local `disconnect`. -/
theorem C2_send_failure_isolation (fails : String → Bool)
    (channel : String) (message : Message) (now : Nat) (s : ManagerState)
    (subscribers : List String) (bad : String)
    (hch : alistGet s.subscriptions channel = some subscribers)
    (hactive : ∀ cid ∈ subscribers,
       s.active_connections.contains cid = true)
    (hf : ∀ cid, fails cid = true ↔ cid = bad)
    (hmem : bad ∈ subscribers) :
    broadcast_to_channel fails channel message now s =
      (disconnect bad s,
       (subscribers.filter (fun cid => cid ≠ bad)).map
         (fun cid => ⟨cid, withChannelMeta message channel now⟩)) ∧
    (disconnect bad s).active_connections.contains bad = false ∧
    alistGet (disconnect bad s).connection_metadata bad = none ∧
    (∀ ch, (subsOf (disconnect bad s) ch).contains bad = false) ∧
    (∀ cid2, cid2 ≠ bad →
       (disconnect bad s).active_connections.contains cid2 =
         s.active_connections.contains cid2) := by
  refine ⟨?_, disconnect_not_active bad s, disconnect_meta_gone bad s,
    fun ch => disconnect_not_subscribed bad s ch,
    fun cid2 h => disconnect_other_active bad cid2 s h⟩
  simp [broadcast_to_channel, hch,
    fanout_one_failure fails (withChannelMeta message channel now) bad
      subscribers s hactive hf hmem]

/-- Witness for C2: five subscribers, the send to `c3` fails; the four
others receive the message and only `c3` is removed. -/
theorem C2_send_failure_isolation_witness :
    ("c3" ∈ ["c1", "c2", "c3", "c4", "c5"]) ∧
    broadcast_to_channel exFails3 "alerts" [("id", Value.str "x1")] 9
        exFan5 =
      (disconnect "c3" exFan5,
       ((["c1", "c2", "c3", "c4", "c5"]).filter (fun cid => cid ≠ "c3")).map
         (fun cid =>
           ⟨cid, withChannelMeta [("id", Value.str "x1")] "alerts" 9⟩)) ∧
    (broadcast_to_channel exFails3 "alerts" [("id", Value.str "x1")] 9
        exFan5).2.length = 4 ∧
    (disconnect "c3" exFan5).active_connections = ["c1", "c2", "c4", "c5"] :=
  ⟨by decide,
   (C2_send_failure_isolation exFails3 "alerts" [("id", Value.str "x1")] 9
      exFan5 ["c1", "c2", "c3", "c4", "c5"] "c3" rfl (by decide)
      (fun cid => by simp [exFails3]) (by decide)).1,
   by
     rw [(C2_send_failure_isolation exFails3 "alerts"
       [("id", Value.str "x1")] 9 exFan5 ["c1", "c2", "c3", "c4", "c5"]
       "c3" rfl (by decide) (fun cid => by simp [exFails3]) (by decide)).1]
     rfl,
   rfl⟩

/-- C5: `disconnect` is idempotent — a second call with the same id is
a no-op — and after any call the id is absent from the connection
table, the metadata table, and every channel's subscriber set.  (It
never raises: it is a total function, with the deletions guarded /
`discard`-based exactly as in the source.) -/
theorem C5_disconnect_idempotent : ∀ (s : ManagerState) (cid : String),
    disconnect cid (disconnect cid s) = disconnect cid s ∧
    (disconnect cid s).active_connections.contains cid = false ∧
    alistGet (disconnect cid s).connection_metadata cid = none ∧
    ∀ ch : String, (subsOf (disconnect cid s) ch).contains cid = false := by
  intro s cid
  refine ⟨?_, disconnect_not_active cid s, disconnect_meta_gone cid s,
    fun ch => disconnect_not_subscribed cid s ch⟩
  simp only [disconnect, ManagerState.mk.injEq]
  refine ⟨?_, ?_, alistRemove_idem _ _⟩
  · rw [List.filter_filter]
    simp
  · rw [List.map_map]
    simp [Function.comp, setDiscard_idem]

/-- Witness for C5 at a concrete state. -/
theorem C5_disconnect_idempotent_witness :
    disconnect "c1" (disconnect "c1" exFan) = disconnect "c1" exFan ∧
    (disconnect "c1" exFan).active_connections.contains "c1" = false ∧
    alistGet (disconnect "c1" exFan).connection_metadata "c1" = none :=
  ⟨(C5_disconnect_idempotent exFan "c1").1,
   (C5_disconnect_idempotent exFan "c1").2.1,
   (C5_disconnect_idempotent exFan "c1").2.2.1⟩

/-! ## Subscribe / connect effect lemmas -/

theorem setAdd_contains_self (l : List String) (x : String) :
    (setAdd l x).contains x = true := by
  simp [mem_setAdd]

theorem setAdd_of_contains (l : List String) (x : String)
    (h : l.contains x = true) : setAdd l x = l := by
  have hx : x ∈ l := by simpa using h
  simp [setAdd, hx]

theorem alistGet_alistModify2 {α : Type} (m : List (String × α))
    (k k1 : String) (f : α → α) :
    alistGet (alistModify m k f) k1 =
      if k = k1 then (alistGet m k1).map f else alistGet m k1 := by
  rw [alistGet_alistModify]
  by_cases he : k = k1
  · subst he; rfl
  · simp [he]

theorem alistGet_none_of_not_hasKey {α : Type} (m : List (String × α))
    (k : String) (h : ¬ alistHasKey m k = true) : alistGet m k = none := by
  cases h2 : alistGet m k with
  | none => rfl
  | some v => exact absurd (by simp [alistHasKey, h2]) h

theorem subscribeStep_subs_get (cid : String) (st : ManagerState)
    (ch ch0 : String) :
    alistGet (subscribeStep cid st ch).subscriptions ch0 =
      if ch = ch0 then
        (alistGet st.subscriptions ch0).map (fun set => setAdd set cid)
      else alistGet st.subscriptions ch0 := by
  simp only [subscribeStep, addSubscriber]
  by_cases hk : alistHasKey st.subscriptions ch
  · rw [if_pos hk, if_pos hk]
    by_cases hm : alistHasKey
        ({ st with subscriptions :=
            alistModify st.subscriptions ch (fun set => setAdd set cid)
          } : ManagerState).connection_metadata cid
    · rw [if_pos hm]
      exact alistGet_alistModify2 st.subscriptions ch ch0
        (fun set => setAdd set cid)
    · rw [if_neg hm]
      exact alistGet_alistModify2 st.subscriptions ch ch0
        (fun set => setAdd set cid)
  · rw [if_neg hk]
    by_cases he : ch = ch0
    · subst he
      simp [alistGet_none_of_not_hasKey st.subscriptions ch hk]
    · simp [he]

theorem subscribeStep_active_eq (cid : String) (st : ManagerState)
    (ch : String) :
    (subscribeStep cid st ch).active_connections = st.active_connections := by
  simp only [subscribeStep]
  split
  · split
    · rfl
    · rfl
  · rfl

theorem subscribe_fold_active (cid : String) :
    ∀ (chs : List String) (st : ManagerState),
    ((chs.foldl (subscribeStep cid) st).active_connections) =
      st.active_connections := by
  intro chs
  induction chs with
  | nil => intro st; rfl
  | cons ch rest ih =>
      intro st
      rw [List.foldl_cons, ih, subscribeStep_active_eq]

theorem subscribe_fold_unknown (cid : String) :
    ∀ (chs : List String) (st : ManagerState) (ch0 : String),
    alistGet st.subscriptions ch0 = none →
    alistGet ((chs.foldl (subscribeStep cid) st).subscriptions) ch0 =
      none := by
  intro chs
  induction chs with
  | nil => intro st ch0 h; exact h
  | cons ch rest ih =>
      intro st ch0 h
      rw [List.foldl_cons]
      refine ih _ ch0 ?_
      rw [subscribeStep_subs_get]
      by_cases he : ch = ch0
      · simp [he, h]
      · simp [he, h]

theorem addSubscriber_get (sb : List (String × List String))
    (ch cid ch0 : String) :
    alistGet (addSubscriber sb ch cid) ch0 =
      if ch = ch0 then
        (alistGet sb ch0).map (fun set => setAdd set cid)
      else alistGet sb ch0 := by
  simp only [addSubscriber]
  by_cases hk : alistHasKey sb ch
  · rw [if_pos hk]
    exact alistGet_alistModify2 sb ch ch0 _
  · rw [if_neg hk]
    by_cases he : ch = ch0
    · subst he
      simp [alistGet_none_of_not_hasKey sb ch hk]
    · simp [he]

theorem addSub_fold_unknown (cid : String) :
    ∀ (chs : List String) (sb : List (String × List String)) (ch0 : String),
    alistGet sb ch0 = none →
    alistGet (chs.foldl (fun sb2 ch => addSubscriber sb2 ch cid) sb) ch0 =
      none := by
  intro chs
  induction chs with
  | nil => intro sb ch0 h; exact h
  | cons ch rest ih =>
      intro sb ch0 h
      rw [List.foldl_cons]
      refine ih _ ch0 ?_
      rw [addSubscriber_get]
      by_cases he : ch = ch0
      · simp [he, h]
      · simp [he, h]

theorem valueStrings_map_str : ∀ l : List String,
    valueStrings (Value.list (l.map Value.str)) = some l := by
  intro l
  induction l with
  | nil => rfl
  | cons x xs ih =>
      simp only [valueStrings, List.map_cons, List.foldr_cons]
      simp only [valueStrings] at ih
      rw [ih]

theorem connect_eq (fails : String → Bool) (cid : String)
    (channels : List String) (now : Nat) (s : ManagerState)
    (hok : fails cid = false) :
    connect fails cid (some channels) now s =
      ({ active_connections := setAdd s.active_connections cid
         subscriptions :=
           channels.foldl (fun sb ch => addSubscriber sb ch cid)
             s.subscriptions
         connection_metadata :=
           alistSet s.connection_metadata cid ⟨now, channels, now⟩ },
       [⟨cid, welcomeMsg cid channels now⟩]) :=
  send_delivers fails (welcomeMsg cid channels now) cid _
    (setAdd_contains_self s.active_connections cid) hok

theorem subscribe_eq (fails : String → Bool) (cid : String)
    (channels : List String) (s : ManagerState)
    (hactive : s.active_connections.contains cid = true)
    (hok : fails cid = false) :
    subscribe fails cid channels s =
      (channels.foldl (subscribeStep cid) s,
       [⟨cid, subscriptionAck "subscribed" channels⟩]) :=
  send_delivers fails (subscriptionAck "subscribed" channels) cid _
    (by rw [subscribe_fold_active]; exact hactive) hok

/-- The state produced by connecting `c1` to the fresh manager with
one known and one unknown requested channel. -/
def exC3 : ManagerState × List Delivery :=
  connect (fun _ => false) "c1" (some ["alerts", "bogus"]) 0 initialState

/-- Counterexample to C3 as stated: connecting with
`channels=["alerts","bogus"]` accepts only `alerts` (no subscriber set
is ever created for `bogus`), yet the single "connected"
acknowledgement lists `["alerts","bogus"]` — the raw requested list,
not the accepted list `["alerts"]`. -/
theorem C3_counterexample :
    exC3.2.map (fun d => d.connection_id) = ["c1"] ∧
    exC3.2.map (fun d => msgChannels d.message) =
      [some ["alerts", "bogus"]] ∧
    alistGet exC3.1.subscriptions "bogus" = none ∧
    subsOf exC3.1 "alerts" = ["c1"] ∧
    decide ((["alerts", "bogus"] : List String) = ["alerts"]) = false := by
  refine ⟨rfl, ?_, rfl, rfl, rfl⟩
  rfl

/-- C3 (amended): unknown channel names are silently dropped — they
never gain a subscriber set and no error reply is produced — but the
acknowledgement sent by `connect` (resp. `subscribe`) lists the full
*requested* channel list verbatim, not only the accepted (resp.
actually changed) channels. -/
theorem C3_unknown_channels_dropped (fails : String → Bool)
    (cid : String) (channels : List String) (now : Nat)
    (s : ManagerState) (ch0 : String)
    (hunknown : alistGet s.subscriptions ch0 = none)
    (hok : fails cid = false)
    (hactive : s.active_connections.contains cid = true) :
    alistGet (connect fails cid (some channels) now s).1.subscriptions
        ch0 = none ∧
    (connect fails cid (some channels) now s).2 =
      [⟨cid, welcomeMsg cid channels now⟩] ∧
    msgChannels (welcomeMsg cid channels now) = some channels ∧
    alistGet (welcomeMsg cid channels now) "type" =
      some (Value.str "connection") ∧
    alistGet (subscribe fails cid channels s).1.subscriptions ch0 =
      none ∧
    (subscribe fails cid channels s).2 =
      [⟨cid, subscriptionAck "subscribed" channels⟩] ∧
    msgChannels (subscriptionAck "subscribed" channels) =
      some channels ∧
    alistGet (subscriptionAck "subscribed" channels) "type" =
      some (Value.str "subscription") := by
  rw [connect_eq fails cid channels now s hok,
    subscribe_eq fails cid channels s hactive hok]
  have h1 : msgChannels (welcomeMsg cid channels now) =
      valueStrings (Value.list (channels.map Value.str)) := rfl
  have h2 : msgChannels (subscriptionAck "subscribed" channels) =
      valueStrings (Value.list (channels.map Value.str)) := rfl
  refine ⟨?_, rfl, ?_, rfl, ?_, rfl, ?_, rfl⟩
  · exact addSub_fold_unknown cid channels s.subscriptions ch0 hunknown
  · rw [h1, valueStrings_map_str]
  · exact subscribe_fold_unknown cid channels s ch0 hunknown
  · rw [h2, valueStrings_map_str]

/-- Witness for the amended C3 at the concrete counterexample input. -/
theorem C3_unknown_channels_dropped_witness :
    alistGet exFan.subscriptions "bogus" = none ∧
    alistGet (connect (fun _ => false) "c1" (some ["alerts", "bogus"]) 3
        exFan).1.subscriptions "bogus" = none ∧
    (connect (fun _ => false) "c1" (some ["alerts", "bogus"]) 3 exFan).2 =
      [⟨"c1", welcomeMsg "c1" ["alerts", "bogus"] 3⟩] ∧
    msgChannels (welcomeMsg "c1" ["alerts", "bogus"] 3) =
      some ["alerts", "bogus"] :=
  ⟨rfl,
   (C3_unknown_channels_dropped (fun _ => false) "c1" ["alerts", "bogus"]
      3 exFan "bogus" rfl rfl (by decide)).1,
   (C3_unknown_channels_dropped (fun _ => false) "c1" ["alerts", "bogus"]
      3 exFan "bogus" rfl rfl (by decide)).2.1,
   (C3_unknown_channels_dropped (fun _ => false) "c1" ["alerts", "bogus"]
      3 exFan "bogus" rfl rfl (by decide)).2.2.1⟩

/-- State after connecting `c1` with `["alerts"]` to a fresh manager. -/
def exC4s0 : ManagerState :=
  (connect (fun _ => false) "c1" (some ["alerts"]) 0 initialState).1

/-- First repeated subscribe of `c1` to `alerts`. -/
def exC4a : ManagerState × List Delivery :=
  subscribe (fun _ => false) "c1" ["alerts"] exC4s0

/-- Second repeated subscribe of `c1` to `alerts`. -/
def exC4b : ManagerState × List Delivery :=
  subscribe (fun _ => false) "c1" ["alerts"] exC4a.1

/-- Counterexample to C4 as stated: after connecting with `alerts`
and subscribing to `alerts` twice more, the subscriber set does hold a
single entry, but the connection's recorded channel list holds three
copies of `"alerts"`, and the two subscribe calls produced two
"subscribed" acknowledgements listing that channel (the claim allows
at most one). -/
theorem C4_counterexample :
    subsOf exC4b.1 "alerts" = ["c1"] ∧
    channelsOfMeta exC4b.1 "c1" = ["alerts", "alerts", "alerts"] ∧
    decide ((["alerts", "alerts", "alerts"] : List String).count
      "alerts" = 1) = false ∧
    ((exC4a.2 ++ exC4b.2).filter
      (fun d => isSubscribedAck d.message "alerts")).length = 2 := by
  refine ⟨rfl, rfl, rfl, ?_⟩
  rfl

/-- C4 (amended): re-subscribing an already-subscribed open connection
to the same channel leaves the channel's subscriber set unchanged
(exactly one membership entry), but appends a duplicate entry to the
connection's recorded channel list, and every subscribe call —
including the repeated one — sends its own "subscribed"
acknowledgement listing that channel. -/
theorem C4_resubscribe (fails : String → Bool) (cid ch : String)
    (s : ManagerState) (set : List String) (m : ConnMeta)
    (hch : alistGet s.subscriptions ch = some set)
    (hmem : set.contains cid = true)
    (hmeta : alistGet s.connection_metadata cid = some m)
    (hactive : s.active_connections.contains cid = true)
    (hok : fails cid = false) :
    alistGet (subscribe fails cid [ch] s).1.subscriptions ch = some set ∧
    alistGet (subscribe fails cid [ch] s).1.connection_metadata cid =
      some ⟨m.connected_at, m.channels ++ [ch], m.last_ping⟩ ∧
    (subscribe fails cid [ch] s).2 =
      [⟨cid, subscriptionAck "subscribed" [ch]⟩] := by
  rw [subscribe_eq fails cid [ch] s hactive hok]
  have hfold : (([ch] : List String).foldl (subscribeStep cid) s) =
      subscribeStep cid s ch := rfl
  refine ⟨?_, ?_, rfl⟩
  · rw [hfold, subscribeStep_subs_get]
    simp [hch, setAdd_of_contains set cid hmem]
  · rw [hfold]
    simp only [subscribeStep]
    rw [if_pos (by simp [alistHasKey, hch])]
    rw [if_pos (by simp [alistHasKey, hmeta])]
    show alistGet (metaAppendChannel s.connection_metadata cid ch) cid = _
    simp only [metaAppendChannel]
    rw [alistGet_alistModify2]
    simp [hmeta]

/-- Witness for the amended C4: `c1` is already subscribed to
`alerts`; a further subscribe leaves the set at one entry, duplicates
the recorded list, and sends another ack. -/
theorem C4_resubscribe_witness :
    alistGet exC4s0.subscriptions "alerts" = some ["c1"] ∧
    alistGet (subscribe (fun _ => false) "c1" ["alerts"]
        exC4s0).1.subscriptions "alerts" = some ["c1"] ∧
    alistGet (subscribe (fun _ => false) "c1" ["alerts"]
        exC4s0).1.connection_metadata "c1" =
      some ⟨0, ["alerts", "alerts"], 0⟩ ∧
    (subscribe (fun _ => false) "c1" ["alerts"] exC4s0).2 =
      [⟨"c1", subscriptionAck "subscribed" ["alerts"]⟩] :=
  ⟨rfl,
   (C4_resubscribe (fun _ => false) "c1" "alerts" exC4s0 ["c1"]
      ⟨0, ["alerts"], 0⟩ rfl rfl rfl rfl rfl).1,
   (C4_resubscribe (fun _ => false) "c1" "alerts" exC4s0 ["c1"]
      ⟨0, ["alerts"], 0⟩ rfl rfl rfl rfl rfl).2.1,
   (C4_resubscribe (fun _ => false) "c1" "alerts" exC4s0 ["c1"]
      ⟨0, ["alerts"], 0⟩ rfl rfl rfl rfl rfl).2.2⟩

/-! ## Bridge lemmas and claims -/

theorem countBackoffs_append (l1 l2 : List BridgeEvent) :
    countBackoffs (l1 ++ l2) = countBackoffs l1 + countBackoffs l2 := by
  simp [countBackoffs, List.filter_append]

theorem publishesOf_append (l1 l2 : List BridgeEvent) :
    publishesOf (l1 ++ l2) = publishesOf l1 ++ publishesOf l2 := by
  simp [publishesOf, List.filterMap_append]

theorem countBackoffs_processLine (decode : String → Option Value)
    (line : String) : countBackoffs (processLine decode line) = 0 := by
  simp only [processLine]
  by_cases hs : line.data.take 6 = "data: ".data
  · rw [if_pos hs]
    cases decode (String.mk (line.data.drop 6)) with
    | none => rfl
    | some v => rfl
  · rw [if_neg hs]
    rfl

theorem countBackoffs_lines (decode : String → Option Value) :
    ∀ lines : List String,
    countBackoffs (lines.flatMap (processLine decode)) = 0 := by
  intro lines
  induction lines with
  | nil => rfl
  | cons l rest ih =>
      rw [List.flatMap_cons, countBackoffs_append,
        countBackoffs_processLine, ih]

theorem countBackoffs_attempt (decode : String → Option Value)
    (a : Attempt) :
    countBackoffs (bridgeAttemptEvents decode a) =
      if a.raisedError then 1 else 0 := by
  simp only [bridgeAttemptEvents]
  have h : countBackoffs
      (BridgeEvent.attempt ::
        (a.lines.flatMap (processLine decode) ++
          (if a.raisedError then [BridgeEvent.backoffWait 5] else []))) =
      countBackoffs
        (a.lines.flatMap (processLine decode) ++
          (if a.raisedError then [BridgeEvent.backoffWait 5] else [])) := by
    simp [countBackoffs]
  rw [h, countBackoffs_append, countBackoffs_lines]
  cases a.raisedError with
  | false => rfl
  | true => rfl

/-- Decode oracle used in bridge counterexamples (decodes nothing). -/
def exNoDecode : String → Option Value := fun _ => none

/-- Counterexample to C7 as stated: two consecutive attempts whose
upstream terminated *normally* (end of stream — which is also what a
non-success HTTP status produces, since the code never checks the
status): the trace holds two connection attempts and zero backoff
waits, so a termination was not followed by the 5-unit backoff before
the next reconnect. -/
theorem C7_counterexample :
    bridgeTrace exNoDecode [⟨[], false⟩, ⟨[], false⟩] =
      [BridgeEvent.attempt, BridgeEvent.attempt] ∧
    countBackoffs
      (bridgeTrace exNoDecode [⟨[], false⟩, ⟨[], false⟩]) = 0 :=
  ⟨rfl, rfl⟩

/-- C7 (amended): only terminations that raise (network errors and
other exceptions) are followed by the fixed 5-unit backoff — the
number of backoff waits equals the number of raising attempts; a
normal end of stream (including a non-success status response, whose
body simply ends) reconnects immediately with no wait.  The loop
never terminates on its own: extending the attempt list extends the
trace.  An upstream that raises 3 times and then connects cleanly
incurs exactly 3 backoff waits, after which the 4th attempt resumes
publishing its events. -/
theorem C7_reconnect_backoff (decode : String → Option Value)
    (attempts : List Attempt) (a1 a2 a3 a4 : Attempt)
    (h1 : a1 = ⟨[], true⟩) (h2 : a2 = ⟨[], true⟩) (h3 : a3 = ⟨[], true⟩)
    (h4 : a4.raisedError = false) :
    countBackoffs (bridgeTrace decode attempts) =
      (attempts.filter (fun a => a.raisedError)).length ∧
    bridgeTrace decode (attempts ++ [a4]) =
      bridgeTrace decode attempts ++ bridgeAttemptEvents decode a4 ∧
    bridgeTrace decode [a1, a2, a3, a4] =
      [BridgeEvent.attempt, BridgeEvent.backoffWait 5,
       BridgeEvent.attempt, BridgeEvent.backoffWait 5,
       BridgeEvent.attempt, BridgeEvent.backoffWait 5,
       BridgeEvent.attempt] ++ a4.lines.flatMap (processLine decode) := by
  refine ⟨?_, ?_, ?_⟩
  · induction attempts with
    | nil => rfl
    | cons a rest ih =>
        rw [bridgeTrace, List.flatMap_cons, countBackoffs_append,
          countBackoffs_attempt, List.filter_cons]
        rw [bridgeTrace] at ih
        rw [ih]
        cases a.raisedError with
        | false => simp
        | true => simp [Nat.add_comm]
  · simp [bridgeTrace]
  · subst h1 h2 h3
    simp [bridgeTrace, bridgeAttemptEvents, h4]

/-- Decode oracle that accepts everything. -/
def exAllDecode : String → Option Value := fun _ => some Value.null

/-- The successful 4th attempt used in the C7 witness. -/
def exA4 : Attempt := ⟨["data: x"], false⟩

/-- Witness for the amended C7: three raising attempts then a clean
connection — exactly 3 backoff waits, then publishing resumes. -/
theorem C7_reconnect_backoff_witness :
    countBackoffs (bridgeTrace exAllDecode
      [⟨[], true⟩, ⟨[], true⟩, ⟨[], true⟩, exA4]) = 3 ∧
    bridgeTrace exAllDecode [⟨[], true⟩, ⟨[], true⟩, ⟨[], true⟩, exA4] =
      [BridgeEvent.attempt, BridgeEvent.backoffWait 5,
       BridgeEvent.attempt, BridgeEvent.backoffWait 5,
       BridgeEvent.attempt, BridgeEvent.backoffWait 5,
       BridgeEvent.attempt,
       BridgeEvent.publish "alerts"
         [("type", Value.str "alert"), ("data", Value.null)]] := by
  constructor
  · rw [(C7_reconnect_backoff exAllDecode
      [⟨[], true⟩, ⟨[], true⟩, ⟨[], true⟩, exA4]
      ⟨[], true⟩ ⟨[], true⟩ ⟨[], true⟩ exA4 rfl rfl rfl rfl).1]
    rfl
  · rw [(C7_reconnect_backoff exAllDecode
      [⟨[], true⟩, ⟨[], true⟩, ⟨[], true⟩, exA4]
      ⟨[], true⟩ ⟨[], true⟩ ⟨[], true⟩ exA4 rfl rfl rfl rfl).2.2]
    rfl

theorem publishesOf_processLine_length (decode : String → Option Value)
    (line : String) :
    (publishesOf (processLine decode line)).length =
      if isGoodLine decode line then 1 else 0 := by
  simp only [processLine]
  by_cases hs : line.data.take 6 = "data: ".data
  · rw [if_pos hs]
    have hg : isGoodLine decode line =
        (decode (String.mk (line.data.drop 6))).isSome := by
      simp [isGoodLine, hs]
    rw [hg]
    cases decode (String.mk (line.data.drop 6)) with
    | none => rfl
    | some v => rfl
  · rw [if_neg hs]
    have hg : isGoodLine decode line = false := by
      simp [isGoodLine, hs]
    rw [hg]
    rfl

theorem publishesOf_processLine_channel (decode : String → Option Value)
    (line : String) (p : String × Message)
    (hp : p ∈ publishesOf (processLine decode line)) : p.1 = "alerts" := by
  simp only [processLine] at hp
  by_cases hs : line.data.take 6 = "data: ".data
  · rw [if_pos hs] at hp
    cases hd : decode (String.mk (line.data.drop 6)) with
    | none => rw [hd] at hp; simp [publishesOf] at hp
    | some v =>
        rw [hd] at hp
        simp only [publishesOf, List.filterMap] at hp
        cases hp with
        | head => rfl
        | tail _ h => cases h
  · rw [if_neg hs] at hp
    simp [publishesOf] at hp

/-- C8: line handling of a bridge session — a line without the
`"data: "` prefix produces nothing; a prefixed line whose remainder
does not decode produces nothing (and processing of later lines is
unaffected, since the event list of a line sequence is the
concatenation of each line's events); a prefixed line whose remainder
decodes to `v` produces exactly one publish of the wrapped event on
the fixed `alerts` channel; hence the number of publishes equals the
number of decodable `"data: "` lines, and every publish targets
`alerts`. -/
theorem C8_data_line_processing (decode : String → Option Value)
    (lines : List String) :
    (∀ l : String, (l.data.take 6 = "data: ".data → False) →
       processLine decode l = []) ∧
    (∀ l : String, l.data.take 6 = "data: ".data →
       decode (String.mk (l.data.drop 6)) = none →
       processLine decode l = []) ∧
    (∀ (l : String) (v : Value), l.data.take 6 = "data: ".data →
       decode (String.mk (l.data.drop 6)) = some v →
       processLine decode l =
         [BridgeEvent.publish "alerts"
           [("type", Value.str "alert"), ("data", v)]]) ∧
    ((lines.flatMap (processLine decode)) =
       (lines.map (processLine decode)).flatten) ∧
    (publishesOf (lines.flatMap (processLine decode))).length =
      (lines.filter (isGoodLine decode)).length ∧
    (∀ p ∈ publishesOf (lines.flatMap (processLine decode)),
       p.1 = "alerts") := by
  refine ⟨?_, ?_, ?_, ?_, ?_, ?_⟩
  · intro l h
    simp only [processLine]
    rw [if_neg h]
  · intro l h hd
    simp only [processLine]
    rw [if_pos h, hd]
  · intro l v h hd
    simp only [processLine]
    rw [if_pos h, hd]
  · simp [List.flatMap_def]
  · induction lines with
    | nil => rfl
    | cons l rest ih =>
        rw [List.flatMap_cons, publishesOf_append, List.length_append,
          publishesOf_processLine_length, List.filter_cons]
        cases hg : isGoodLine decode l with
        | false => simpa using ih
        | true => simpa [Nat.add_comm] using ih
  · intro p hp
    induction lines with
    | nil => simp [publishesOf] at hp
    | cons l rest ih =>
        rw [List.flatMap_cons, publishesOf_append] at hp
        rcases List.mem_append.mp hp with h1 | h2
        · exact publishesOf_processLine_channel decode l p h1
        · exact ih h2

/-- Malformed-payload decode oracle for the C8 witness: decodes every
remainder except `"oops"`. -/
def exDecode8 : String → Option Value :=
  fun s => if s = "oops" then none else some (Value.str s)

/-- Ten `"data: "` lines, one malformed, plus one ignored comment. -/
def exLines : List String :=
  ["data: a1", "data: a2", "data: a3", "data: a4", "data: oops",
   "data: a6", "data: a7", "data: a8", "data: a9", "data: a10",
   ": keep-alive"]

/-- Witness for C8: 10 `"data: "` lines of which 1 is malformed yield
exactly 9 published events. -/
theorem C8_data_line_processing_witness :
    (exLines.filter (isGoodLine exDecode8)).length = 9 ∧
    (publishesOf (exLines.flatMap (processLine exDecode8))).length = 9 := by
  constructor
  · rfl
  · rw [(C8_data_line_processing exDecode8 exLines).2.2.2.2.1]
    rfl

/-! ## Protocol handler claims -/

theorem loop_status_iff (fails : String → Bool) (cid : String) :
    ∀ (events : List TransportEvent) (s : ManagerState),
    ((websocket_loop fails cid events s).2.2 = LoopStatus.closed ↔
      events.any (fun e => !e.isCommand) = true) := by
  intro events
  induction events with
  | nil => intro s; simp [websocket_loop]
  | cons e rest ih =>
      intro s
      cases e with
      | command m =>
          simp [websocket_loop, TransportEvent.isCommand, ih]
      | disconnected =>
          simp [websocket_loop, TransportEvent.isCommand]
      | transportError =>
          simp [websocket_loop, TransportEvent.isCommand]

theorem loop_closed_removed (fails : String → Bool) (cid : String) :
    ∀ (events : List TransportEvent) (s : ManagerState),
    (websocket_loop fails cid events s).2.2 = LoopStatus.closed →
    ((websocket_loop fails cid events s).1.active_connections.contains
        cid = false ∧
     alistGet (websocket_loop fails cid events s).1.connection_metadata
        cid = none ∧
     ∀ ch, (subsOf (websocket_loop fails cid events s).1 ch).contains
        cid = false) := by
  intro events
  induction events with
  | nil =>
      intro s h
      simp [websocket_loop] at h
  | cons e rest ih =>
      intro s h
      cases e with
      | command m =>
          simp only [websocket_loop] at h ⊢
          exact ih _ h
      | disconnected =>
          refine ⟨disconnect_not_active cid s, disconnect_meta_gone cid s,
            fun ch => disconnect_not_subscribed cid s ch⟩
      | transportError =>
          refine ⟨disconnect_not_active cid s, disconnect_meta_gone cid s,
            fun ch => disconnect_not_subscribed cid s ch⟩

/-- C9: an inbound command whose action is none of `subscribe`,
`unsubscribe`, `ping`, `get_stats` produces exactly one `error` reply
to that connection naming the unrecognized action, leaves the manager
state (and hence the connection) untouched, and the loop continues
with the remaining events; the loop reaches the closed state exactly
when a transport disconnect or transport error event occurs, and in
that case the final state has the connection removed from the
connection table, the metadata table, and every subscriber set
(`manager.disconnect(connection_id)` was called). -/
theorem C9_unknown_command_loop (fails : String → Bool) (cid : String)
    (m : InboundMsg) (rest events : List TransportEvent)
    (s : ManagerState)
    (h1 : m.action ≠ some "subscribe") (h2 : m.action ≠ some "unsubscribe")
    (h3 : m.action ≠ some "ping") (h4 : m.action ≠ some "get_stats")
    (hactive : s.active_connections.contains cid = true)
    (hok : fails cid = false) :
    handleCommand fails cid m s =
      (s, [⟨cid, unknownActionReply m.action⟩]) ∧
    websocket_loop fails cid (TransportEvent.command m :: rest) s =
      ((websocket_loop fails cid rest s).1,
       ⟨cid, unknownActionReply m.action⟩ ::
         (websocket_loop fails cid rest s).2.1,
       (websocket_loop fails cid rest s).2.2) ∧
    ((websocket_loop fails cid events s).2.2 = LoopStatus.closed ↔
      events.any (fun e => !e.isCommand) = true) ∧
    ((websocket_loop fails cid events s).2.2 = LoopStatus.closed →
      (websocket_loop fails cid events s).1.active_connections.contains
          cid = false ∧
      alistGet (websocket_loop fails cid events
          s).1.connection_metadata cid = none ∧
      ∀ ch, (subsOf (websocket_loop fails cid events s).1 ch).contains
          cid = false) := by
  have hcmd : handleCommand fails cid m s =
      (s, [⟨cid, unknownActionReply m.action⟩]) := by
    simp only [handleCommand]
    rw [if_neg h1, if_neg h2, if_neg h3, if_neg h4]
    exact send_delivers fails (unknownActionReply m.action) cid s
      hactive hok
  refine ⟨hcmd, ?_, loop_status_iff fails cid events s,
    loop_closed_removed fails cid events s⟩
  simp only [websocket_loop, hcmd, List.singleton_append]

/-- Transport events for the C9 witness: one unknown command, then a
client disconnect. -/
def exEvents : List TransportEvent :=
  [TransportEvent.command ⟨some "dance", []⟩, TransportEvent.disconnected]

/-- Witness for C9: the unknown `dance` command gets an error reply
and the loop goes on; the following disconnect closes the loop and
removes the connection. -/
theorem C9_unknown_command_loop_witness :
    handleCommand (fun _ => false) "c1" ⟨some "dance", []⟩ exFan =
      (exFan, [⟨"c1", unknownActionReply (some "dance")⟩]) ∧
    ((websocket_loop (fun _ => false) "c1" exEvents exFan).2.2 =
        LoopStatus.closed ↔
      exEvents.any (fun e => !e.isCommand) = true) ∧
    (websocket_loop (fun _ => false) "c1" exEvents
        exFan).1.active_connections.contains "c1" = false :=
  ⟨(C9_unknown_command_loop (fun _ => false) "c1" ⟨some "dance", []⟩ []
      exEvents exFan (by decide) (by decide) (by decide) (by decide)
      rfl rfl).1,
   (C9_unknown_command_loop (fun _ => false) "c1" ⟨some "dance", []⟩ []
      exEvents exFan (by decide) (by decide) (by decide) (by decide)
      rfl rfl).2.2.1,
   ((C9_unknown_command_loop (fun _ => false) "c1" ⟨some "dance", []⟩ []
      exEvents exFan (by decide) (by decide) (by decide) (by decide)
      rfl rfl).2.2.2 rfl).1⟩

/-! ## Metadata-timestamp preservation (C10 infrastructure) -/

/-- `(connected_at, last_ping)` of a connection is either untouched by
an operation or gone because the connection was removed. -/
def timesPreserved (s s2 : ManagerState) (cid : String) : Prop :=
  timesOf s2 cid = timesOf s cid ∨ timesOf s2 cid = none

theorem timesPreserved_trans (s s2 s3 : ManagerState) (cid : String)
    (h1 : timesPreserved s s2 cid) (h2 : timesPreserved s2 s3 cid) :
    timesPreserved s s3 cid := by
  cases h1 with
  | inl e1 =>
      cases h2 with
      | inl e2 => exact Or.inl (e1 ▸ e2)
      | inr e2 => exact Or.inr e2
  | inr e1 =>
      cases h2 with
      | inl e2 => exact Or.inr (e1 ▸ e2)
      | inr e2 => exact Or.inr e2

theorem timesPreserved_disconnect (s : ManagerState) (cid2 cid : String) :
    timesPreserved s (disconnect cid2 s) cid := by
  by_cases he : cid2 = cid
  · right
    simp [timesOf, disconnect, alistGet_alistRemove, he]
  · left
    simp [timesOf, disconnect, alistGet_alistRemove, he]

theorem timesPreserved_send (fails : String → Bool) (msg : Message)
    (cid2 cid : String) (s : ManagerState) :
    timesPreserved s (send_personal_message fails msg cid2 s).1 cid := by
  simp only [send_personal_message]
  split
  · split
    · exact timesPreserved_disconnect s cid2 cid
    · exact Or.inl rfl
  · exact Or.inl rfl

theorem timesPreserved_fanout (fails : String → Bool) (msg : Message)
    (cid : String) :
    ∀ (targets : List String) (s : ManagerState),
    timesPreserved s (fanout fails msg targets s).1 cid := by
  intro targets
  induction targets with
  | nil => intro s; exact Or.inl rfl
  | cons c rest ih =>
      intro s
      exact timesPreserved_trans _ _ _ cid
        (timesPreserved_send fails msg c cid s) (ih _)

theorem timesOf_metaAppend (meta : List (String × ConnMeta))
    (cid2 ch cid : String) :
    (alistGet (metaAppendChannel meta cid2 ch) cid).map
        (fun m => (m.connected_at, m.last_ping)) =
      (alistGet meta cid).map (fun m => (m.connected_at, m.last_ping)) := by
  simp only [metaAppendChannel]
  rw [alistGet_alistModify2]
  by_cases he : cid2 = cid
  · rw [if_pos he]
    cases alistGet meta cid with
    | none => rfl
    | some m => rfl
  · rw [if_neg he]

theorem timesOf_metaRemove (meta : List (String × ConnMeta))
    (cid2 ch cid : String) :
    (alistGet (metaRemoveChannel meta cid2 ch) cid).map
        (fun m => (m.connected_at, m.last_ping)) =
      (alistGet meta cid).map (fun m => (m.connected_at, m.last_ping)) := by
  simp only [metaRemoveChannel]
  rw [alistGet_alistModify2]
  by_cases he : cid2 = cid
  · rw [if_pos he]
    cases alistGet meta cid with
    | none => rfl
    | some m => rfl
  · rw [if_neg he]

theorem timesOf_subscribeStep (cid2 : String) (st : ManagerState)
    (ch cid : String) :
    timesOf (subscribeStep cid2 st ch) cid = timesOf st cid := by
  simp only [subscribeStep]
  split
  · split
    · exact timesOf_metaAppend st.connection_metadata cid2 ch cid
    · rfl
  · rfl

theorem timesOf_subscribeFold (cid2 cid : String) :
    ∀ (chs : List String) (st : ManagerState),
    timesOf (chs.foldl (subscribeStep cid2) st) cid = timesOf st cid := by
  intro chs
  induction chs with
  | nil => intro st; rfl
  | cons ch rest ih =>
      intro st
      rw [List.foldl_cons, ih, timesOf_subscribeStep]

theorem timesOf_unsubscribeStep (cid2 : String) (st : ManagerState)
    (ch cid : String) :
    timesOf (unsubscribeStep cid2 st ch) cid = timesOf st cid := by
  simp only [unsubscribeStep]
  split
  · split
    · exact timesOf_metaRemove st.connection_metadata cid2 ch cid
    · rfl
  · rfl

theorem timesOf_unsubscribeFold (cid2 cid : String) :
    ∀ (chs : List String) (st : ManagerState),
    timesOf (chs.foldl (unsubscribeStep cid2) st) cid = timesOf st cid := by
  intro chs
  induction chs with
  | nil => intro st; rfl
  | cons ch rest ih =>
      intro st
      rw [List.foldl_cons, ih, timesOf_unsubscribeStep]

theorem timesPreserved_applyOp (fails : String → Bool) (now : Nat)
    (op : MgrOp) (s : ManagerState) (cid : String)
    (hnc : isConnectOf op cid = false) :
    timesPreserved s (applyOp fails now op s).1 cid := by
  cases op with
  | connectOp cid2 chs =>
      have hne : cid2 ≠ cid := by
        simpa [isConnectOf] using hnc
      cases chs with
      | none =>
          refine timesPreserved_trans s _ _ cid (Or.inl ?_)
            (timesPreserved_send fails (welcomeMsg cid2 [] now) cid2 cid _)
          simp [timesOf, alistGet_alistSet, hne]
      | some cs =>
          refine timesPreserved_trans s _ _ cid (Or.inl ?_)
            (timesPreserved_send fails (welcomeMsg cid2 cs now) cid2 cid _)
          simp [timesOf, alistGet_alistSet, hne]
  | disconnectOp cid2 => exact timesPreserved_disconnect s cid2 cid
  | subscribeOp cid2 chs =>
      refine timesPreserved_trans s _ _ cid
        (Or.inl (timesOf_subscribeFold cid2 cid chs s))
        (timesPreserved_send fails
          (subscriptionAck "subscribed" chs) cid2 cid _)
  | unsubscribeOp cid2 chs =>
      refine timesPreserved_trans s _ _ cid
        (Or.inl (timesOf_unsubscribeFold cid2 cid chs s))
        (timesPreserved_send fails
          (subscriptionAck "unsubscribed" chs) cid2 cid _)
  | sendOp m cid2 => exact timesPreserved_send fails m cid2 cid s
  | broadcastOp ch m =>
      simp only [applyOp, broadcast_to_channel]
      cases alistGet s.subscriptions ch with
      | none => exact Or.inl rfl
      | some subscribers =>
          exact timesPreserved_fanout fails
            (withChannelMeta m ch now) cid subscribers s
  | broadcastAllOp m =>
      exact timesPreserved_fanout fails
        (alistSet m "timestamp" (Value.num now)) cid
        s.active_connections s

theorem statsLastPings_get_stats (s : ManagerState) :
    statsLastPings (get_stats s) =
      s.connection_metadata.map (fun p => (p.1, p.2.last_ping)) := by
  have h0 : statsLastPings (get_stats s) =
      (s.connection_metadata.map (fun p => Value.obj
        [("connection_id", Value.str p.1),
         ("connected_at", Value.num p.2.connected_at),
         ("channels", Value.list (p.2.channels.map Value.str)),
         ("last_ping", Value.num p.2.last_ping)])).filterMap
        statsEntryDecode := rfl
  rw [h0]
  generalize s.connection_metadata = meta
  induction meta with
  | nil => rfl
  | cons p rest ih =>
      rw [List.map_cons, List.filterMap_cons]
      have hdec : statsEntryDecode (Value.obj
          [("connection_id", Value.str p.1),
           ("connected_at", Value.num p.2.connected_at),
           ("channels", Value.list (p.2.channels.map Value.str)),
           ("last_ping", Value.num p.2.last_ping)]) =
        some (p.1, p.2.last_ping) := rfl
      rw [hdec, ih, List.map_cons]

/-- C10: `last_ping` (and `connected_at`) is written exactly once, at
accept time — `connect` stores the accept instant in both fields — and
no later manager operation ever rewrites it: any non-`connect`
operation either leaves the pair untouched or removes the connection
altogether; handling a client `ping` command replies `pong` without
touching any state; and `get_stats()` reports the stored `last_ping`
verbatim, so the reported `last_ping` always equals the connection's
accept time. -/
theorem C10_last_ping_immutable (fails : String → Bool) (now : Nat)
    (op : MgrOp) (s : ManagerState) (cid : String)
    (hnc : isConnectOf op cid = false)
    (hok : fails cid = false) :
    (timesOf (applyOp fails now op s).1 cid = timesOf s cid ∨
     timesOf (applyOp fails now op s).1 cid = none) ∧
    (∀ (chs : List String) (s2 : ManagerState),
       timesOf (connect fails cid (some chs) now s2).1 cid =
         some (now, now)) ∧
    (∀ s3 : ManagerState, s3.active_connections.contains cid = true →
       handleCommand fails cid ⟨some "ping", []⟩ s3 =
         (s3, [⟨cid, [("type", Value.str "pong")]⟩])) ∧
    statsLastPings (get_stats s) =
      s.connection_metadata.map (fun p => (p.1, p.2.last_ping)) := by
  refine ⟨timesPreserved_applyOp fails now op s cid hnc, ?_, ?_,
    statsLastPings_get_stats s⟩
  · intro chs s2
    rw [connect_eq fails cid chs now s2 hok]
    simp [timesOf, alistGet_alistSet]
  · intro s3 hactive
    exact send_delivers fails [("type", Value.str "pong")] cid s3
      hactive hok

/-- Witness for C10: a further subscribe leaves `c1`'s stored times
unchanged; connecting stores `(now, now)`; `ping` yields `pong` with
no state change; stats reports the stored values. -/
theorem C10_last_ping_immutable_witness :
    (timesOf (applyOp (fun _ => false) 5
        (MgrOp.subscribeOp "c1" ["news"]) exFan).1 "c1" =
          timesOf exFan "c1" ∨
     timesOf (applyOp (fun _ => false) 5
        (MgrOp.subscribeOp "c1" ["news"]) exFan).1 "c1" = none) ∧
    timesOf (connect (fun _ => false) "c1" (some ["alerts"]) 5
        initialState).1 "c1" = some (5, 5) ∧
    handleCommand (fun _ => false) "c1" ⟨some "ping", []⟩ exFan =
      (exFan, [⟨"c1", [("type", Value.str "pong")]⟩]) ∧
    statsLastPings (get_stats exFan) =
      exFan.connection_metadata.map (fun p => (p.1, p.2.last_ping)) :=
  ⟨(C10_last_ping_immutable (fun _ => false) 5
      (MgrOp.subscribeOp "c1" ["news"]) exFan "c1" rfl rfl).1,
   (C10_last_ping_immutable (fun _ => false) 5
      (MgrOp.subscribeOp "c1" ["news"]) exFan "c1" rfl rfl).2.1
     ["alerts"] initialState,
   (C10_last_ping_immutable (fun _ => false) 5
      (MgrOp.subscribeOp "c1" ["news"]) exFan "c1" rfl rfl).2.2.1
     exFan rfl,
   (C10_last_ping_immutable (fun _ => false) 5
      (MgrOp.subscribeOp "c1" ["news"]) exFan "c1" rfl rfl).2.2.2⟩

/-! ## Invariant preservation (C6 infrastructure) -/

theorem hasKey_alistModify {α : Type} (m : List (String × α))
    (k : String) (f : α → α) (cid : String) :
    alistHasKey (alistModify m k f) cid = alistHasKey m cid := by
  rw [alistHasKey, alistHasKey, alistGet_alistModify2]
  by_cases he : k = cid
  · rw [if_pos he]
    cases alistGet m cid with
    | none => rfl
    | some v => rfl
  · rw [if_neg he]

theorem setAdd_idem (l : List String) (x : String) :
    setAdd (setAdd l x) x = setAdd l x := by
  by_cases hx : x ∈ l
  · have h2 : setAdd l x = l := by simp [setAdd, hx]
    rw [h2, h2]
  · have h2 : setAdd l x = l ++ [x] := by simp [setAdd, hx]
    rw [h2]
    have h3 : x ∈ l ++ [x] := by simp
    simp [setAdd, h3]

theorem mem_removeFirst_ne (x y : String) :
    ∀ l : List String, y ∈ l → y ≠ x → y ∈ removeFirst l x := by
  intro l
  induction l with
  | nil => intro h _; cases h
  | cons z rest ih =>
      intro hy hne
      by_cases hz : z = x
      · rw [removeFirst, if_pos hz]
        cases hy with
        | head => exact absurd hz hne
        | tail _ hm => exact hm
      · rw [removeFirst, if_neg hz]
        cases hy with
        | head => exact List.mem_cons_self _ _
        | tail _ hm => exact List.mem_cons_of_mem _ (ih hm hne)

theorem addSub_fold_get (cid : String) :
    ∀ (chs : List String) (sb : List (String × List String))
      (ch0 : String),
    alistGet (chs.foldl (fun sb2 ch => addSubscriber sb2 ch cid) sb) ch0 =
      if ch0 ∈ chs then
        (alistGet sb ch0).map (fun set => setAdd set cid)
      else alistGet sb ch0 := by
  intro chs
  induction chs with
  | nil => intro sb ch0; simp
  | cons ch rest ih =>
      intro sb ch0
      rw [List.foldl_cons, ih, addSubscriber_get]
      by_cases he : ch = ch0
      · subst he
        by_cases hr : ch ∈ rest
        · rw [if_pos hr, if_pos (List.mem_cons_self ch rest), if_pos rfl]
          cases alistGet sb ch with
          | none => rfl
          | some set => simp [setAdd_idem]
        · rw [if_neg hr, if_pos rfl, if_pos (List.mem_cons_self ch rest)]
      · by_cases hr : ch0 ∈ rest
        · rw [if_pos hr, if_neg he,
            if_pos (List.mem_cons_of_mem ch hr)]
        · rw [if_neg hr, if_neg he,
            if_neg (by
              intro hmem
              cases hmem with
              | head => exact he rfl
              | tail _ hm => exact hr hm)]

theorem managerInvP_disconnect (s : ManagerState) (cid2 : String)
    (h : managerInvP s) : managerInvP (disconnect cid2 s) := by
  obtain ⟨h1, h2, h3⟩ := h
  refine ⟨?_, ?_, ?_⟩
  · intro cid hc
    simp only [disconnect] at hc ⊢
    have hm := List.mem_filter.mp hc
    have hcm : cid ∈ s.active_connections := hm.1
    have hne : cid ≠ cid2 := by simpa using hm.2
    rw [alistHasKey, alistGet_alistRemove,
      if_neg (fun hh => hne hh.symm)]
    exact h1 cid hcm
  · intro cid hk
    simp only [disconnect] at hk ⊢
    rw [alistHasKey, alistGet_alistRemove] at hk
    by_cases he : cid2 = cid
    · rw [if_pos he] at hk
      simp at hk
    · rw [if_neg he] at hk
      refine List.mem_filter.mpr ⟨h2 cid hk, ?_⟩
      simpa using fun hh => he hh.symm
  · intro ch cid hc
    simp only [subsOf, disconnect] at hc
    rw [alistGet_mapValues s.subscriptions
      (fun set => setDiscard set cid2) ch] at hc
    cases o : alistGet s.subscriptions ch with
    | none => rw [o] at hc; simp at hc
    | some set =>
        rw [o] at hc
        simp only [Option.map_some', Option.getD_some] at hc
        have hm := List.mem_filter.mp hc
        have hcm : cid ∈ set := hm.1
        have hne : cid ≠ cid2 := by simpa using hm.2
        have inv := h3 ch cid (by rw [subsOf, o]; exact hcm)
        constructor
        · simp only [disconnect]
          exact List.mem_filter.mpr
            ⟨inv.1, by simpa using hne⟩
        · simp only [channelsOfMeta, disconnect]
          rw [alistGet_alistRemove, if_neg (fun hh => hne hh.symm)]
          simpa [channelsOfMeta] using inv.2

theorem managerInvP_send (fails : String → Bool) (msg : Message)
    (cid2 : String) (s : ManagerState) (h : managerInvP s) :
    managerInvP (send_personal_message fails msg cid2 s).1 := by
  simp only [send_personal_message]
  split
  · split
    · exact managerInvP_disconnect s cid2 h
    · exact h
  · exact h

theorem managerInvP_fanout (fails : String → Bool) (msg : Message) :
    ∀ (targets : List String) (s : ManagerState),
    managerInvP s → managerInvP (fanout fails msg targets s).1 := by
  intro targets
  induction targets with
  | nil => intro s h; exact h
  | cons cid rest ih =>
      intro s h
      exact ih _ (managerInvP_send fails msg cid s h)

theorem managerInvP_subscribeStep (cid2 : String) (st : ManagerState)
    (ch : String) (hcid2 : cid2 ∈ st.active_connections)
    (h : managerInvP st) : managerInvP (subscribeStep cid2 st ch) := by
  obtain ⟨h1, h2, h3⟩ := h
  by_cases hk : alistHasKey st.subscriptions ch
  · have hkm : alistHasKey st.connection_metadata cid2 = true :=
      h1 cid2 hcid2
    cases ometa : alistGet st.connection_metadata cid2 with
    | none =>
        rw [alistHasKey, ometa] at hkm
        simp at hkm
    | some m =>
        have hstep : subscribeStep cid2 st ch =
            { st with
              subscriptions :=
                alistModify st.subscriptions ch
                  (fun set => setAdd set cid2)
              connection_metadata :=
                metaAppendChannel st.connection_metadata cid2 ch } := by
          simp only [subscribeStep, addSubscriber]
          rw [if_pos hk, if_pos hk, if_pos hkm]
        rw [hstep]
        refine ⟨?_, ?_, ?_⟩
        · intro cid hc
          show alistHasKey
            (metaAppendChannel st.connection_metadata cid2 ch) cid = true
          simp only [metaAppendChannel]
          rw [hasKey_alistModify]
          exact h1 cid hc
        · intro cid hk2
          simp only [metaAppendChannel] at hk2
          rw [hasKey_alistModify] at hk2
          exact h2 cid hk2
        · intro ch0 cid hc
          simp only [subsOf] at hc
          rw [alistGet_alistModify2] at hc
          by_cases he : ch = ch0
          · rw [if_pos he] at hc
            cases o : alistGet st.subscriptions ch0 with
            | none => rw [o] at hc; simp at hc
            | some set =>
                rw [o] at hc
                simp only [Option.map_some', Option.getD_some] at hc
                cases (mem_setAdd set cid2 cid).mp hc with
                | inl hin =>
                    have inv := h3 ch0 cid (by rw [subsOf, o]; exact hin)
                    refine ⟨inv.1, ?_⟩
                    simp only [channelsOfMeta, metaAppendChannel]
                    rw [alistGet_alistModify2]
                    by_cases hee : cid2 = cid
                    · rw [if_pos hee]
                      cases o2 : alistGet st.connection_metadata cid with
                      | none =>
                          have hi := inv.2
                          simp [channelsOfMeta, o2] at hi
                      | some mm =>
                          simp only [Option.map_some']
                          have hi := inv.2
                          simp only [channelsOfMeta, o2] at hi
                          exact List.mem_append.mpr (Or.inl hi)
                    · rw [if_neg hee]
                      exact inv.2
                | inr heq =>
                    constructor
                    · rw [heq]; exact hcid2
                    · rw [heq, ← he]
                      simp only [channelsOfMeta, metaAppendChannel]
                      rw [alistGet_alistModify2, if_pos rfl, ometa]
                      simp
          · rw [if_neg he] at hc
            have inv := h3 ch0 cid (by rw [subsOf]; exact hc)
            refine ⟨inv.1, ?_⟩
            simp only [channelsOfMeta, metaAppendChannel]
            rw [alistGet_alistModify2]
            by_cases hee : cid2 = cid
            · rw [if_pos hee]
              cases o2 : alistGet st.connection_metadata cid with
              | none =>
                  have hi := inv.2
                  simp [channelsOfMeta, o2] at hi
              | some mm =>
                  simp only [Option.map_some']
                  have hi := inv.2
                  simp only [channelsOfMeta, o2] at hi
                  exact List.mem_append.mpr (Or.inl hi)
            · rw [if_neg hee]
              exact inv.2
  · simp only [subscribeStep]
    rw [if_neg hk]
    exact ⟨h1, h2, h3⟩

theorem managerInvP_subscribeFold (cid2 : String) :
    ∀ (chs : List String) (st : ManagerState),
    cid2 ∈ st.active_connections → managerInvP st →
    managerInvP (chs.foldl (subscribeStep cid2) st) := by
  intro chs
  induction chs with
  | nil => intro st _ h; exact h
  | cons ch rest ih =>
      intro st hcid2 h
      rw [List.foldl_cons]
      refine ih _ ?_ (managerInvP_subscribeStep cid2 st ch hcid2 h)
      rw [subscribeStep_active_eq]
      exact hcid2

theorem managerInvP_unsubscribeStep (cid2 : String) (st : ManagerState)
    (ch : String) (h : managerInvP st) :
    managerInvP (unsubscribeStep cid2 st ch) := by
  obtain ⟨h1, h2, h3⟩ := h
  by_cases hk : alistHasKey st.subscriptions ch
  · by_cases hkm : alistHasKey st.connection_metadata cid2
    · have hstep : unsubscribeStep cid2 st ch =
          { st with
            subscriptions :=
              alistModify st.subscriptions ch
                (fun set => setDiscard set cid2)
            connection_metadata :=
              metaRemoveChannel st.connection_metadata cid2 ch } := by
        simp only [unsubscribeStep]
        rw [if_pos hk, if_pos hkm]
      rw [hstep]
      refine ⟨?_, ?_, ?_⟩
      · intro cid hc
        show alistHasKey
          (metaRemoveChannel st.connection_metadata cid2 ch) cid = true
        simp only [metaRemoveChannel]
        rw [hasKey_alistModify]
        exact h1 cid hc
      · intro cid hk2
        simp only [metaRemoveChannel] at hk2
        rw [hasKey_alistModify] at hk2
        exact h2 cid hk2
      · intro ch0 cid hc
        simp only [subsOf] at hc
        rw [alistGet_alistModify2] at hc
        by_cases he : ch = ch0
        · rw [if_pos he] at hc
          cases o : alistGet st.subscriptions ch0 with
          | none => rw [o] at hc; simp at hc
          | some set =>
              rw [o] at hc
              simp only [Option.map_some', Option.getD_some] at hc
              have hm := List.mem_filter.mp hc
              have hcm : cid ∈ set := hm.1
              have hne : cid ≠ cid2 := by simpa using hm.2
              have inv := h3 ch0 cid (by rw [subsOf, o]; exact hcm)
              refine ⟨inv.1, ?_⟩
              simp only [channelsOfMeta, metaRemoveChannel]
              rw [alistGet_alistModify2,
                if_neg (fun hh => hne hh.symm)]
              exact inv.2
        · rw [if_neg he] at hc
          have inv := h3 ch0 cid (by rw [subsOf]; exact hc)
          refine ⟨inv.1, ?_⟩
          simp only [channelsOfMeta, metaRemoveChannel]
          rw [alistGet_alistModify2]
          by_cases hee : cid2 = cid
          · rw [if_pos hee]
            cases o2 : alistGet st.connection_metadata cid with
            | none =>
                have hi := inv.2
                simp [channelsOfMeta, o2] at hi
            | some mm =>
                simp only [Option.map_some']
                have hi := inv.2
                simp only [channelsOfMeta, o2] at hi
                by_cases hcont : mm.channels.contains ch
                · rw [if_pos hcont]
                  exact mem_removeFirst_ne ch ch0 mm.channels hi
                    (fun hh => he hh.symm)
                · rw [if_neg hcont]
                  exact hi
          · rw [if_neg hee]
            exact inv.2
    · have hstep : unsubscribeStep cid2 st ch =
          { st with
            subscriptions :=
              alistModify st.subscriptions ch
                (fun set => setDiscard set cid2) } := by
        simp only [unsubscribeStep]
        rw [if_pos hk, if_neg hkm]
      rw [hstep]
      refine ⟨?_, ?_, ?_⟩
      · intro cid hc
        exact h1 cid hc
      · intro cid hk2
        exact h2 cid hk2
      · intro ch0 cid hc
        simp only [subsOf] at hc
        rw [alistGet_alistModify2] at hc
        by_cases he : ch = ch0
        · rw [if_pos he] at hc
          cases o : alistGet st.subscriptions ch0 with
          | none => rw [o] at hc; simp at hc
          | some set =>
              rw [o] at hc
              simp only [Option.map_some', Option.getD_some] at hc
              have hm := List.mem_filter.mp hc
              exact h3 ch0 cid (by rw [subsOf, o]; exact hm.1)
        · rw [if_neg he] at hc
          exact h3 ch0 cid (by rw [subsOf]; exact hc)
  · simp only [unsubscribeStep]
    rw [if_neg hk]
    exact ⟨h1, h2, h3⟩

theorem managerInvP_unsubscribeFold (cid2 : String) :
    ∀ (chs : List String) (st : ManagerState),
    managerInvP st → managerInvP (chs.foldl (unsubscribeStep cid2) st) := by
  intro chs
  induction chs with
  | nil => intro st h; exact h
  | cons ch rest ih =>
      intro st h
      rw [List.foldl_cons]
      exact ih _ (managerInvP_unsubscribeStep cid2 st ch h)

theorem managerInvP_connectState (cid2 : String) (chs : List String)
    (now : Nat) (s : ManagerState)
    (hfresh : cid2 ∉ s.active_connections) (h : managerInvP s) :
    managerInvP
      { active_connections := setAdd s.active_connections cid2
        subscriptions :=
          chs.foldl (fun sb ch => addSubscriber sb ch cid2)
            s.subscriptions
        connection_metadata :=
          alistSet s.connection_metadata cid2 ⟨now, chs, now⟩ } := by
  obtain ⟨h1, h2, h3⟩ := h
  refine ⟨?_, ?_, ?_⟩
  · intro cid hc
    show alistHasKey
      (alistSet s.connection_metadata cid2 ⟨now, chs, now⟩) cid = true
    rw [alistHasKey, alistGet_alistSet]
    by_cases he : cid2 = cid
    · rw [if_pos he]
      rfl
    · rw [if_neg he]
      cases (mem_setAdd s.active_connections cid2 cid).mp hc with
      | inl hin => exact h1 cid hin
      | inr heq => exact absurd heq.symm he
  · intro cid hk2
    rw [alistHasKey, alistGet_alistSet] at hk2
    by_cases he : cid2 = cid
    · exact (mem_setAdd s.active_connections cid2 cid).mpr
        (Or.inr he.symm)
    · rw [if_neg he] at hk2
      exact (mem_setAdd s.active_connections cid2 cid).mpr
        (Or.inl (h2 cid hk2))
  · intro ch0 cid hc
    simp only [subsOf] at hc
    rw [addSub_fold_get] at hc
    by_cases hin : ch0 ∈ chs
    · rw [if_pos hin] at hc
      cases o : alistGet s.subscriptions ch0 with
      | none => rw [o] at hc; simp at hc
      | some set =>
          rw [o] at hc
          simp only [Option.map_some', Option.getD_some] at hc
          cases (mem_setAdd set cid2 cid).mp hc with
          | inl hmem =>
              have inv := h3 ch0 cid (by rw [subsOf, o]; exact hmem)
              have hne : cid2 ≠ cid := fun hh => hfresh (hh ▸ inv.1)
              refine ⟨(mem_setAdd s.active_connections cid2 cid).mpr
                (Or.inl inv.1), ?_⟩
              simp only [channelsOfMeta]
              rw [alistGet_alistSet, if_neg hne]
              exact inv.2
          | inr heq =>
              refine ⟨(mem_setAdd s.active_connections cid2 cid).mpr
                (Or.inr heq), ?_⟩
              simp only [channelsOfMeta]
              rw [heq, alistGet_alistSet, if_pos rfl]
              exact hin
    · rw [if_neg hin] at hc
      have inv := h3 ch0 cid (by rw [subsOf]; exact hc)
      have hne : cid2 ≠ cid := fun hh => hfresh (hh ▸ inv.1)
      refine ⟨(mem_setAdd s.active_connections cid2 cid).mpr
        (Or.inl inv.1), ?_⟩
      simp only [channelsOfMeta]
      rw [alistGet_alistSet, if_neg hne]
      exact inv.2

theorem managerInvP_connect (fails : String → Bool) (cid2 : String)
    (chsOpt : Option (List String)) (now : Nat) (s : ManagerState)
    (hfresh : cid2 ∉ s.active_connections) (h : managerInvP s) :
    managerInvP (connect fails cid2 chsOpt now s).1 := by
  cases chsOpt with
  | none =>
      exact managerInvP_send fails (welcomeMsg cid2 [] now) cid2 _
        (managerInvP_connectState cid2 [] now s hfresh h)
  | some cs =>
      exact managerInvP_send fails (welcomeMsg cid2 cs now) cid2 _
        (managerInvP_connectState cid2 cs now s hfresh h)

theorem managerInvP_initialState : managerInvP initialState := by
  refine ⟨?_, ?_, ?_⟩
  · intro cid hc
    simp [initialState] at hc
  · intro cid hk
    simp [initialState, alistHasKey, alistGet] at hk
  · intro ch cid hc
    have hempty : subsOf initialState ch = [] := by
      simp only [subsOf, initialState, alistGet]
      split_ifs <;> rfl
    rw [hempty] at hc
    simp at hc

/-- The state reached by a single manager operation — `connect` with
one known and one unknown requested channel — from the initial
state. -/
def exC6 : ManagerState :=
  (connect (fun _ => false) "c1" (some ["alerts", "bogus"]) 0
    initialState).1

/-- Counterexample to C6 as stated: immediately after the single
operation `connect(c1, ["alerts","bogus"])` completes, the claimed
mutual consistency fails — `c1`'s membership record lists `bogus`,
which has no subscriber set at all. -/
theorem C6_counterexample :
    mutuallyConsistent exC6 = false ∧
    channelsOfMeta exC6 "c1" = ["alerts", "bogus"] ∧
    alistGet exC6.subscriptions "bogus" = none ∧
    subsOf exC6 "alerts" = ["c1"] := by
  exact ⟨rfl, rfl, rfl, rfl⟩

/-- C6 (amended): after any single manager operation — provided
`connect` is given a fresh identifier and `subscribe`/`unsubscribe`
target an open connection, as the protocol handler does — the
subscriber-side half of the consistency invariant is preserved: the
connection table and metadata table have exactly the same keys, and
every connection in any channel's subscriber set is a currently-open
connection whose membership record lists that channel.  The converse
direction of the claimed invariant does not hold: a membership record
may list unknown channels (from `connect`) and duplicate entries (from
repeated `subscribe`). -/
theorem C6_subscriber_invariant (fails : String → Bool) (now : Nat)
    (op : MgrOp) (s : ManagerState)
    (hinv : managerInvP s) (hok : opOK s op = true) :
    managerInvP (applyOp fails now op s).1 := by
  cases op with
  | connectOp cid chs =>
      have hfresh : cid ∉ s.active_connections := by
        simp only [opOK] at hok
        simpa using hok
      exact managerInvP_connect fails cid chs now s hfresh hinv
  | disconnectOp cid => exact managerInvP_disconnect s cid hinv
  | subscribeOp cid chs =>
      have hactive : cid ∈ s.active_connections := by
        simp only [opOK] at hok
        simpa using hok
      exact managerInvP_send fails (subscriptionAck "subscribed" chs)
        cid _ (managerInvP_subscribeFold cid chs s hactive hinv)
  | unsubscribeOp cid chs =>
      exact managerInvP_send fails (subscriptionAck "unsubscribed" chs)
        cid _ (managerInvP_unsubscribeFold cid chs s hinv)
  | sendOp m cid => exact managerInvP_send fails m cid s hinv
  | broadcastOp ch m =>
      simp only [applyOp, broadcast_to_channel]
      cases alistGet s.subscriptions ch with
      | none => exact hinv
      | some subscribers =>
          exact managerInvP_fanout fails _ subscribers s hinv
  | broadcastAllOp m =>
      exact managerInvP_fanout fails _ s.active_connections s hinv

/-- Witness for the amended C6: connecting a fresh connection to the
initial state preserves the invariant. -/
theorem C6_subscriber_invariant_witness :
    opOK initialState (MgrOp.connectOp "c1" (some ["alerts"])) = true ∧
    managerInvP (applyOp (fun _ => false) 0
      (MgrOp.connectOp "c1" (some ["alerts"])) initialState).1 :=
  ⟨rfl,
   C6_subscriber_invariant (fun _ => false) 0
     (MgrOp.connectOp "c1" (some ["alerts"])) initialState
     managerInvP_initialState rfl⟩
